import Mathlib

/-!
# Verification of the felox backend "duello" (1-vs-1 duel) subsystem

This file gives a shallow embedding, in Lean 4, of the duel subsystem of the
felox backend (the SSE-notifying Express/PostgreSQL server): the invite
manager, the atomic invite acceptance, the question-set generator, the answer
processor, the reveal/progression controller, the idle-timeout sweeper and the
two score aggregations.

Modelling choices:
* The database is an explicit record of lists of rows (`DB`); each HTTP
  handler / background tick becomes a pure function `DB → Result × DB`.
  SQL `UPDATE ... WHERE` statements become pointwise maps over the row lists,
  with the `WHERE` clause translated literally into the per-row guard, so that
  the presence or absence of a `state='active'` guard in the source SQL is
  visible in the corresponding per-row write function.
* Handlers are modelled as atomic (the accept path serializes itself with
  `pg_advisory_xact_lock` on both user ids taken in ascending order, and every
  other write expresses its precondition inside the statement itself).
* Timestamps are integers (seconds); `timezone('Europe/Istanbul', now())` is
  the field `DB.now`; SQL `NULL` timestamps are `Option Int` with
  `COALESCE(x, TIMESTAMP 'epoch')` becoming `Option.getD x 0`.
* The `md5(...)` expression used by the question-set generator is modelled as
  an explicit hash parameter `String → String`; the generator orders the
  approved pool by that key exactly as the SQL `ORDER BY md5($1::text || '-'
  || q.id::text)` does.
* SSE notifications (`sseEmit`) become an append-only event log in the state.
-/

/-- `DUELLO_PER_Q_SEC`: `Math.max(5, parseInt(process.env.DUELLO_PER_Q_SEC || "16", 10))`
with the environment variable unset (default build). -/
def DUELLO_PER_Q_SEC : Int := 16

/-- `DUELLO_IDLE_ABORT_SEC`: `Math.max(30, Math.min(600, parseInt(process.env.DUELLO_IDLE_ABORT_SEC || "90", 10)))`,
for a parsed environment value `env` (`none` = variable unset, parse default 90). -/
def duelloIdleAbortSecOf (env : Option Int) : Int :=
  max 30 (min 600 (env.getD 90))

/-- Row of `users` (the part the duel subsystem reads: id and lookup code). -/
structure UserRow where
  id : Nat
  user_code : String
deriving Repr, DecidableEq

/-- Row of `questions` joined with its survey: the duel pool reads
`q.id`, `q.correct_answer`, `q.point` and the survey `status='approved'` filter. -/
structure QuestionRow where
  id : Nat
  correct_answer : String
  point : Int
  approved : Bool
deriving Repr, DecidableEq

/-- Row of `duello_matches`. -/
structure MatchRow where
  id : Nat
  mode : String
  user_a_id : Nat
  user_b_id : Nat
  state : String
  total_questions : Nat
  current_index : Nat
  last_seen_a : Option Int := none
  last_seen_b : Option Int := none
  last_activity_at : Option Int := none
  finished_at : Option Int := none
  abandoned_at : Option Int := none
  ended_reason : Option String := none
deriving Repr, DecidableEq

/-- Row of `duello_invites`. -/
structure InviteRow where
  id : Nat
  from_user_id : Nat
  to_user_id : Nat
  mode : String
  status : String
  expire_at : Int
  match_id : Option Nat := none
deriving Repr, DecidableEq

/-- Row of `duello_match_questions`. -/
structure MQRow where
  match_id : Nat
  pos : Nat
  question_id : Nat
deriving Repr, DecidableEq

/-- Row of `duello_answers` (the fields the duel logic reads/writes). -/
structure AnswerRow where
  match_id : Nat
  question_id : Nat
  user_id : Nat
  answer : String
  is_correct : Nat
  max_time_seconds : Int
  time_left_seconds : Int
deriving Repr, DecidableEq

/-- One `sseEmit(userId, event, {...id})` call, recorded in an event log. -/
structure Evt where
  user_id : Nat
  event : String
  ref_id : Nat
deriving Repr, DecidableEq

/-- The transactional store, as seen by the duel subsystem, plus the event log. -/
structure DB where
  now : Int
  users : List UserRow
  questions : List QuestionRow
  duello_matches : List MatchRow
  invites : List InviteRow
  match_questions : List MQRow
  answers : List AnswerRow
  events : List Evt
  next_match_id : Nat
  next_invite_id : Nat
deriving Repr, DecidableEq

/-! ## Answer normalization (`normalizeAnswer`, `normalizeDuelloAnswer`) -/

/-- Whitespace for the purposes of JS `String.prototype.trim`. -/
def isWsChar (c : Char) : Bool := c = ' ' ∨ c = '\t' ∨ c = '\n' ∨ c = '\r'

/-- Kernel-computable model of JS `trim()` (drop leading/trailing whitespace). -/
def strTrim (s : String) : String :=
  ⟨((s.data.dropWhile isWsChar).reverse.dropWhile isWsChar).reverse⟩

/-- Kernel-computable model of JS `toLowerCase()` (character-wise lowering). -/
def strLower (s : String) : String := ⟨s.data.map Char.toLower⟩

/-- Kernel-computable model of JS `toUpperCase()` (character-wise raising). -/
def strUpper (s : String) : String := ⟨s.data.map Char.toUpper⟩

/-- The canonical three-value answer vocabulary `{evet, hayır, bilmem}`. -/
def duelloVocab : List String := ["evet", "hayır", "bilmem"]

/-- `normalizeAnswer(v)` from the source.  `v = none` models a JS `null`/`undefined`
argument (`if (v == null) return ""`); trimming and lower-casing model
`String(v).trim().toLowerCase()`. -/
def normalizeAnswer (v : Option String) : String :=
  match v with
  | none => ""
  | some v0 =>
    let s0 := strLower (strTrim v0)
    let s := if s0 = "hayir" then "hayır" else s0
    if (["evet", "hayır", "bilmem"].contains s) then s
    else if (["yes", "true", "1"].contains s) then "evet"
    else if (["no", "false", "0"].contains s) then "hayır"
    else if (["dontknow", "unknown", "idk", "skip", "empty", "null"].contains s) then "bilmem"
    else s

/-- The membership-test chain of `normalizeAnswer` (its lines after computing
the canonical form `s`), factored out for the statements below. -/
def normCore (s : String) : String :=
  if (["evet", "hayır", "bilmem"].contains s) then s
  else if (["yes", "true", "1"].contains s) then "evet"
  else if (["no", "false", "0"].contains s) then "hayır"
  else if (["dontknow", "unknown", "idk", "skip", "empty", "null"].contains s) then "bilmem"
  else s

/-- The canonical form of a raw value: `String(v).trim().toLowerCase()` with the
`"hayir" → "hayır"` repair — the `s` the membership tests of `normalizeAnswer`
are run against. -/
def canonAnswer (v : Option String) : String :=
  match v with
  | none => ""
  | some v0 =>
    let s0 := strLower (strTrim v0)
    if s0 = "hayir" then "hayır" else s0

/-- The tokens `normalizeAnswer` recognizes (union of its four membership lists). -/
def recognizedAnswerTokens : List String :=
  ["evet", "hayır", "bilmem", "yes", "true", "1", "no", "false", "0",
   "dontknow", "unknown", "idk", "skip", "empty", "null"]

/-- `normalizeDuelloAnswer(mode, raw)`: in speed mode a user-submitted
`bilmem` is rejected (`null`), otherwise the normalized string is returned. -/
def normalizeDuelloAnswer (mode : String) (raw : Option String) : Option String :=
  let s := normalizeAnswer raw
  if mode = "speed" ∧ s = "bilmem" then none else some s

/-! ## Small read helpers -/

/-- `SELECT * FROM duello_matches WHERE id=$1` (first row). -/
def DB.findMatch (db : DB) (matchId : Nat) : Option MatchRow :=
  db.duello_matches.find? (fun m => m.id = matchId)

/-- `SELECT * FROM duello_invites WHERE id=$1` (first row). -/
def DB.findInvite (db : DB) (inviteId : Nat) : Option InviteRow :=
  db.invites.find? (fun i => i.id = inviteId)

/-- `hasActiveMatch(userId)`:
`SELECT 1 FROM duello_matches WHERE state='active' AND (user_a_id=$1 OR user_b_id=$1) LIMIT 1`. -/
def hasActiveMatch (db : DB) (userId : Nat) : Bool :=
  db.duello_matches.any (fun m =>
    m.state = "active" ∧ (m.user_a_id = userId ∨ m.user_b_id = userId))

/-- `hasFreshPendingInvite(a, b)`: a pending, unexpired invite between the pair
in either direction. -/
def hasFreshPendingInvite (db : DB) (a b : Nat) : Bool :=
  db.invites.any (fun i =>
    i.status = "pending" ∧ db.now < i.expire_at ∧
      ((i.from_user_id = a ∧ i.to_user_id = b) ∨
       (i.from_user_id = b ∧ i.to_user_id = a)))

/-- `findUserByIdOrCode({user_id, user_code})`: by id when `user_id` is truthy,
else by upper-cased trimmed code when `user_code` is truthy, else `null`. -/
def findUserByIdOrCode (db : DB) (uid : Option Nat) (ucode : Option String) : Option UserRow :=
  if uid.getD 0 ≠ 0 then
    db.users.find? (fun r => r.id = uid.getD 0)
  else
    match ucode with
    | some c =>
      if c ≠ "" then db.users.find? (fun r => r.user_code = strUpper (strTrim c))
      else none
    | none => none

/-! ## Invite-side writes -/

/-- `expireOldInvites()`: `UPDATE duello_invites SET status='expired'
WHERE status='pending' AND expire_at <= now()`. -/
def expireOldInvites (db : DB) : DB :=
  { db with invites := db.invites.map (fun i =>
      if i.status = "pending" ∧ i.expire_at ≤ db.now
      then { i with status := "expired" } else i) }

/-- Per-row effect of the lazy-finish statement run inside `POST /api/duello/invite`:
`UPDATE duello_matches SET state='finished', finished_at=now()
WHERE state='active' AND current_index >= total_questions`. -/
def lazyFinishWrite (now : Int) (m : MatchRow) : MatchRow :=
  if m.state = "active" ∧ m.total_questions ≤ m.current_index
  then { m with state := "finished", finished_at := some now } else m

/-- The lazy-finish statement of `POST /api/duello/invite`, applied system-wide. -/
def finishOvercompleteMatches (db : DB) : DB :=
  { db with duello_matches := db.duello_matches.map (lazyFinishWrite db.now) }

/-! ## `POST /api/duello/invite` (createInvite) -/

/-- Result of `POST /api/duello/invite`, one constructor per distinct response
of the handler. -/
inductive InviteOut
  | missingFrom
  | targetUnknown
  | badMode
  | selfChallenge
  | senderActive
  | receiverActive
  | duplicatePending
  | created (inviteId : Nat)
deriving Repr, DecidableEq

/-- `POST /api/duello/invite`.  Checks follow the source order: resolve target,
`from_user_id` truthiness, mode validity, self-challenge; then `expireOldInvites`,
then the system-wide lazy finish of over-complete active matches, then the
single-active-match checks for sender and receiver, the duplicate-pending
check, and finally the insert (5-minute expiry) plus `invite:new` to the target. -/
def duelloCreateInvite (db : DB) (fromId : Nat) (toUid : Option Nat)
    (toCode : Option String) (modeRaw : Option String) : InviteOut × DB :=
  let mode := strLower (modeRaw.getD "info")
  let toUser := findUserByIdOrCode db toUid toCode
  if fromId = 0 then (InviteOut.missingFrom, db)
  else
    match toUser with
    | none => (InviteOut.targetUnknown, db)
    | some tu =>
      if ¬ (["info", "speed"].contains mode) then (InviteOut.badMode, db)
      else if fromId = tu.id then (InviteOut.selfChallenge, db)
      else
        let db1 := finishOvercompleteMatches (expireOldInvites db)
        if hasActiveMatch db1 fromId then (InviteOut.senderActive, db1)
        else if hasActiveMatch db1 tu.id then (InviteOut.receiverActive, db1)
        else if hasFreshPendingInvite db1 fromId tu.id then (InviteOut.duplicatePending, db1)
        else
          let inv : InviteRow :=
            { id := db1.next_invite_id, from_user_id := fromId, to_user_id := tu.id,
              mode := mode, status := "pending", expire_at := db1.now + 300 }
          (InviteOut.created inv.id,
            { db1 with
                invites := db1.invites ++ [inv],
                next_invite_id := db1.next_invite_id + 1,
                events := db1.events ++ [⟨tu.id, "invite:new", inv.id⟩] })

/-! ## `POST /api/duello/invite/respond` (respondInvite) -/

/-- Result of `POST /api/duello/invite/respond`. -/
inductive RespondOut
  | missingParams
  | badAction
  | notFound
  | forbidden
  | notPending
  | expired
  | rejected
  | senderActive
  | receiverActive
  | accepted (matchId : Nat)
deriving Repr, DecidableEq

/-- Effect on one invite row of the two `UPDATE duello_invites` statements run
inside the accept transaction: the accepted invite gets `status='accepted'` and
the back-reference to the new match; every *other* pending, unexpired invite
touching either participant gets `status='cancelled'`. -/
def acceptInviteWrite (inviteId newMatchId : Nat) (fromId toId : Nat) (now : Int)
    (i : InviteRow) : InviteRow :=
  if i.id = inviteId then
    { i with status := "accepted", match_id := some newMatchId }
  else if i.status = "pending" ∧ now < i.expire_at ∧
          (i.from_user_id = fromId ∨ i.from_user_id = toId ∨
           i.to_user_id = fromId ∨ i.to_user_id = toId) then
    { i with status := "cancelled" }
  else i

/-- `POST /api/duello/invite/respond`.  The accept branch is the
advisory-lock transaction of the source, modelled as one atomic step: under the
two user locks it re-reads the invite (the same row, since the step is atomic),
re-checks `pending`/expiry, re-checks the single-active-match rule for both
participants, inserts the `active` match (`total_questions=12, current_index=0`),
marks the invite accepted, cancels the other pending invites touching either
participant, and emits `invite:accepted` to both. -/
def duelloRespondInvite (db0 : DB) (inviteId userId : Nat) (action : String) :
    RespondOut × DB :=
  if inviteId = 0 ∨ userId = 0 then (RespondOut.missingParams, db0)
  else if ¬ (["accept", "reject"].contains action) then (RespondOut.badAction, db0)
  else
    let db := expireOldInvites db0
    match db.findInvite inviteId with
    | none => (RespondOut.notFound, db)
    | some inv =>
      if inv.to_user_id ≠ userId then (RespondOut.forbidden, db)
      else if inv.status ≠ "pending" then (RespondOut.notPending, db)
      else if inv.expire_at ≤ db.now then
        (RespondOut.expired,
          { db with invites := db.invites.map (fun i =>
              if i.id = inviteId then { i with status := "expired" } else i) })
      else if action = "reject" then
        (RespondOut.rejected,
          { db with
              invites := db.invites.map (fun i =>
                if i.id = inviteId then { i with status := "rejected" } else i),
              events := db.events ++ [⟨inv.from_user_id, "invite:rejected", inviteId⟩] })
      else
        -- ACCEPT: transaction under pg_advisory_xact_lock(min id), then (max id)
        let fromId := inv.from_user_id
        let toId := inv.to_user_id
        if hasActiveMatch db fromId then (RespondOut.senderActive, db)
        else if hasActiveMatch db toId then (RespondOut.receiverActive, db)
        else
          let mid := db.next_match_id
          let m : MatchRow :=
            { id := mid, mode := inv.mode, user_a_id := fromId, user_b_id := toId,
              state := "active", total_questions := 12, current_index := 0,
              last_seen_a := some db.now, last_seen_b := some db.now,
              last_activity_at := some db.now }
          (RespondOut.accepted mid,
            { db with
                duello_matches := db.duello_matches ++ [m],
                invites := db.invites.map (acceptInviteWrite inviteId mid fromId toId db.now),
                next_match_id := db.next_match_id + 1,
                events := db.events ++
                  [⟨fromId, "invite:accepted", mid⟩, ⟨toId, "invite:accepted", mid⟩] })

/-! ## Question set (`ensureDuelloQuestionSet`) -/

/-- Stable insertion into a list sorted by the Bool-valued strict order `lt`. -/
def insOrd {α : Type} (lt : α → α → Bool) (x : α) : List α → List α
  | [] => [x]
  | y :: ys => if lt x y then x :: y :: ys else y :: insOrd lt x ys

/-- Stable insertion sort by the Bool-valued strict order `lt` (deterministic
model of SQL `ORDER BY`). -/
def sortOrd {α : Type} (lt : α → α → Bool) : List α → List α
  | [] => []
  | x :: xs => insOrd lt x (sortOrd lt xs)

/-- `SELECT question_id FROM duello_match_questions WHERE match_id=$1 AND pos=$2`
(`row?.question_id || null`). -/
def duelloGetQuestionIdByPos (db : DB) (matchId pos : Nat) : Option Nat :=
  (db.match_questions.find? (fun r => r.match_id = matchId ∧ r.pos = pos)).map
    (fun r => r.question_id)

/-- `SELECT pos, question_id FROM duello_match_questions WHERE match_id=$1 ORDER BY pos ASC`. -/
def selectMQRows (tbl : List MQRow) (matchId : Nat) : List MQRow :=
  sortOrd (fun r s => r.pos < s.pos) (tbl.filter (fun r => r.match_id = matchId))

/-- The match-seeded ordering key of the generator:
`md5($1::text || '-' || q.id::text)` with `md5` the hash parameter. -/
def mqOrderKey (hash : String → String) (matchId qid : Nat) : String :=
  hash (toString matchId ++ "-" ++ toString qid)

/-- The `for` loop of `ensureDuelloQuestionSet`: insert `ids[i]` at position
`i+1` with `ON CONFLICT (match_id, pos) DO NOTHING`. -/
def mqInsertLoop (matchId : Nat) : List Nat → Nat → List MQRow → List MQRow
  | [], _, tbl => tbl
  | qid :: rest, pos, tbl =>
    mqInsertLoop matchId rest (pos + 1)
      (if tbl.any (fun r => r.match_id = matchId ∧ r.pos = pos) then tbl
       else tbl ++ [⟨matchId, pos, qid⟩])

/-- `ensureDuelloQuestionSet(match)`: return the existing rows if any; otherwise
select `total` ids from the approved pool ordered by the match-seeded hash,
insert them at positions `1..N` ignoring conflicts, and re-select. -/
def ensureDuelloQuestionSet (hash : String → String) (db : DB) (m : MatchRow) :
    List MQRow × DB :=
  let existing := selectMQRows db.match_questions m.id
  if 0 < existing.length then (existing, db)
  else
    -- const total = Math.max(1, Number(match.total_questions) || 12)
    let total := max 1 (if m.total_questions = 0 then 12 else m.total_questions)
    let pool := (db.questions.filter (fun q => q.approved)).map (fun q => q.id)
    let ordered := sortOrd
      (fun a b => decide (mqOrderKey hash m.id a < mqOrderKey hash m.id b)) pool
    let ids := ordered.take total
    let db2 := { db with match_questions := mqInsertLoop m.id ids 1 db.match_questions }
    (selectMQRows db2.match_questions m.id, db2)

/-- The rows the generator's `for` loop writes for `ids` starting at position
`pos`: `(match_id, pos, ids[0]), (match_id, pos+1, ids[1]), ...`. -/
def mqRowsFor (matchId : Nat) : List Nat → Nat → List MQRow
  | [], _ => []
  | qid :: rest, pos => ⟨matchId, pos, qid⟩ :: mqRowsFor matchId rest (pos + 1)

/-- The ids `ensureDuelloQuestionSet` selects for match `m`: the approved pool
ordered by the match-seeded hash key, limited to the match's question count. -/
def duelloChosenQuestionIds (hash : String → String) (db : DB) (m : MatchRow) : List Nat :=
  (sortOrd (fun a b => decide (mqOrderKey hash m.id a < mqOrderKey hash m.id b))
    ((db.questions.filter (fun q => q.approved)).map (fun q => q.id))).take
    (max 1 (if m.total_questions = 0 then 12 else m.total_questions))

/-! ## Score aggregations (`duelloScores`, `duelloMatchTotals`) -/

/-- `FROM duello_answers da JOIN questions q ON q.id = da.question_id
WHERE da.match_id = $1`: the inner join drops answers whose question row is absent. -/
def duelloScoreRows (db : DB) (matchId : Nat) : List (AnswerRow × QuestionRow) :=
  (db.answers.filter (fun r => r.match_id = matchId)).filterMap (fun r =>
    (db.questions.find? (fun q => q.id = r.question_id)).map (fun q => (r, q)))

/-- The shared `CASE` of both aggregations:
`WHEN da.answer='bilmem' THEN 0 WHEN da.is_correct=1 THEN q.point ELSE -q.point`. -/
def scoreCase (rq : AnswerRow × QuestionRow) : Int :=
  if rq.1.answer = "bilmem" then 0
  else if rq.1.is_correct = 1 then rq.2.point
  else -rq.2.point

/-- `duelloScores(matchId, aId, bId)`: one `SUM` per user over all the match's
joined answer rows, with `CASE WHEN da.user_id = $k THEN ... ELSE 0 END`. -/
def duelloScores (db : DB) (matchId aId bId : Nat) : Int × Int :=
  let rows := duelloScoreRows db matchId
  ((rows.map (fun rq => if rq.1.user_id = aId then scoreCase rq else 0)).sum,
   (rows.map (fun rq => if rq.1.user_id = bId then scoreCase rq else 0)).sum)

/-- The `score` column of `duelloMatchTotals(matchId)` for `uid`
(`GROUP BY da.user_id`), with the summary endpoint's `{score: 0}` default when
the user has no rows in the group. -/
def duelloMatchTotalsScore (db : DB) (matchId uid : Nat) : Int :=
  (((duelloScoreRows db matchId).filter (fun rq => rq.1.user_id = uid)).map scoreCase).sum

/-! ## `POST /api/duello/match/:matchId/answer` (submitAnswer) -/

/-- Per-row effect of the liveness touch shared by the answer and reveal
handlers: `UPDATE duello_matches SET last_activity_at=now(),
last_seen_a=CASE..., last_seen_b=CASE... WHERE id=$1`. -/
def touchWrite (matchId userId : Nat) (now : Int) (m : MatchRow) : MatchRow :=
  if m.id = matchId then
    { m with
        last_activity_at := some now,
        last_seen_a := if m.user_a_id = userId then some now else m.last_seen_a,
        last_seen_b := if m.user_b_id = userId then some now else m.last_seen_b }
  else m

/-- The liveness touch, applied to the match table. -/
def touchLiveness (db : DB) (matchId userId : Nat) : DB :=
  { db with duello_matches := db.duello_matches.map (touchWrite matchId userId db.now) }

/-- `opponentId(m, uid)`. -/
def opponentId (m : MatchRow) (uid : Nat) : Nat :=
  if m.user_a_id = uid then m.user_b_id else m.user_a_id

/-- `inThisMatch(m, uid)`. -/
def inThisMatch (m : MatchRow) (uid : Nat) : Bool :=
  m.user_a_id = uid ∨ m.user_b_id = uid

/-- `const maxSec = Number.isFinite(mls) ? Math.max(1, Math.min(120, Math.round(mls))) : DUELLO_PER_Q_SEC`. -/
def submitMaxSec (mls : Option Int) : Int :=
  match mls with
  | some v => max 1 (min 120 v)
  | none => DUELLO_PER_Q_SEC

/-- `const leftSec = Math.max(0, Math.min(leftRaw, maxSec))` with
`leftRaw = Number.isFinite(tls) ? Math.round(tls) : 0`. -/
def submitLeftSec (tls mls : Option Int) : Int :=
  max 0 (min (tls.getD 0) (submitMaxSec mls))

/-- Result of `POST /api/duello/match/:matchId/answer`. -/
inductive SubmitOut
  | missingParams
  | notFound
  | notActive
  | forbidden
  | noActiveQuestion
  | noSkipInSpeedMode
  | alreadyAnswered
  | questionLocked
  | ok (locked : Bool)
deriving Repr, DecidableEq

/-- `POST /api/duello/match/:matchId/answer`.  `raw` is the request's answer
value (`none` = absent), `tls`/`mls` model `time_left_seconds` /
`max_time_seconds` (`none` = absent or non-finite). -/
def duelloSubmitAnswer (db0 : DB) (matchId userId : Nat) (raw : Option String)
    (tls mls : Option Int) : SubmitOut × DB :=
  if matchId = 0 ∨ userId = 0 then (SubmitOut.missingParams, db0)
  else
    match db0.findMatch matchId with
    | none => (SubmitOut.notFound, db0)
    | some m =>
      if m.state ≠ "active" then (SubmitOut.notActive, db0)
      else if ¬ inThisMatch m userId then (SubmitOut.forbidden, db0)
      else
        let db := touchLiveness db0 matchId userId
        let currentPos := m.current_index + 1
        match duelloGetQuestionIdByPos db matchId currentPos with
        | none => (SubmitOut.noActiveQuestion, db)
        | some qid =>
          match normalizeDuelloAnswer m.mode raw with
          | none => (SubmitOut.noSkipInSpeedMode, db)
          | some norm =>
            if db.answers.any (fun r =>
                r.match_id = matchId ∧ r.question_id = qid ∧ r.user_id = userId) then
              (SubmitOut.alreadyAnswered, db)
            else
              let isCorrect : Nat :=
                if (db.questions.find? (fun q => q.id = qid)).map
                    (fun q => q.correct_answer) = some norm then 1 else 0
              let maxSec : Int := submitMaxSec mls
              let leftSec : Int := submitLeftSec tls mls
              if m.mode = "speed" then
                -- INSERT ... SELECT ... WHERE NOT EXISTS
                --   (SELECT 1 FROM duello_answers WHERE match_id=$1 AND question_id=$2)
                if db.answers.any (fun r => r.match_id = matchId ∧ r.question_id = qid) then
                  (SubmitOut.questionLocked, db)
                else
                  let mine : AnswerRow := ⟨matchId, qid, userId, norm, isCorrect, maxSec, leftSec⟩
                  let db1 := { db with answers := db.answers ++ [mine] }
                  let oppId := opponentId m userId
                  let oppFill : AnswerRow := ⟨matchId, qid, oppId, "bilmem", 0, maxSec, 0⟩
                  let db2 :=
                    if db1.answers.any (fun r =>
                        r.match_id = matchId ∧ r.question_id = qid ∧ r.user_id = oppId) then db1
                    else { db1 with answers := db1.answers ++ [oppFill] }
                  (SubmitOut.ok true, db2)
              else
                let mine : AnswerRow := ⟨matchId, qid, userId, norm, isCorrect, maxSec, leftSec⟩
                (SubmitOut.ok false, { db with answers := db.answers ++ [mine] })

/-! ## `POST /api/duello/match/:matchId/reveal` (progression) -/

/-- The termination write of the reveal handler's over-the-end and missing-question
branches: `UPDATE duello_matches SET state='finished', finished_at=now()
WHERE id=$1` — its `WHERE` clause names only the id, with no `state='active'` guard. -/
def revealFinishWrite (matchId : Nat) (now : Int) (m : MatchRow) : MatchRow :=
  if m.id = matchId then { m with state := "finished", finished_at := some now } else m

/-- The termination write of the reveal handler's last-question branch:
`UPDATE duello_matches SET current_index=$2, state='finished', finished_at=now()
WHERE id=$1` — again guarded only by the id. -/
def revealAdvanceFinishWrite (matchId nextIdx : Nat) (now : Int) (m : MatchRow) : MatchRow :=
  if m.id = matchId then
    { m with current_index := nextIdx, state := "finished", finished_at := some now }
  else m

/-- `UPDATE duello_matches SET current_index=$2 WHERE id=$1`. -/
def revealAdvanceWrite (matchId nextIdx : Nat) (m : MatchRow) : MatchRow :=
  if m.id = matchId then { m with current_index := nextIdx } else m

/-- The info-mode auto-fill of the reveal handler, on the answer table: insert
a `'bilmem'` (`is_correct=0`) row for each participant who has not yet
answered `qid`. -/
def autofillAnswers (ans : List AnswerRow) (matchId qid aId bId : Nat) : List AnswerRow :=
  let maxSec := DUELLO_PER_Q_SEC
  let ans1 :=
    if ans.any (fun r =>
        r.match_id = matchId ∧ r.question_id = qid ∧ r.user_id = aId) then ans
    else ans ++ [⟨matchId, qid, aId, "bilmem", 0, maxSec, 0⟩]
  if ans1.any (fun r =>
      r.match_id = matchId ∧ r.question_id = qid ∧ r.user_id = bId) then ans1
  else ans1 ++ [⟨matchId, qid, bId, "bilmem", 0, maxSec, 0⟩]

/-- The info-mode auto-fill of the reveal handler, as a state update. -/
def infoAutofill (db : DB) (matchId qid aId bId : Nat) : DB :=
  { db with answers := autofillAnswers db.answers matchId qid aId bId }

/-- Result of `POST /api/duello/match/:matchId/reveal`:
`ok finished current_index` is the handler's `{success, finished, current_index}`. -/
inductive RevealOut
  | missingParams
  | notFound
  | forbidden
  | ok (finished : Bool) (current_index : Nat)
deriving Repr, DecidableEq

/-- `POST /api/duello/match/:matchId/reveal`. -/
def duelloReveal (db0 : DB) (matchId userId : Nat) : RevealOut × DB :=
  if matchId = 0 ∨ userId = 0 then (RevealOut.missingParams, db0)
  else
    match db0.findMatch matchId with
    | none => (RevealOut.notFound, db0)
    | some m =>
      if m.state ≠ "active" then
        (RevealOut.ok true m.current_index,
          { db0 with events := db0.events ++
              [⟨m.user_a_id, "match:finished", m.id⟩, ⟨m.user_b_id, "match:finished", m.id⟩] })
      else if ¬ inThisMatch m userId then (RevealOut.forbidden, db0)
      else
        let db := touchLiveness db0 matchId userId
        let total := m.total_questions
        let currentPos := m.current_index + 1
        if total < currentPos then
          (RevealOut.ok true total,
            { db with
                duello_matches := db.duello_matches.map (revealFinishWrite matchId db.now),
                events := db.events ++
                  [⟨m.user_a_id, "match:finished", m.id⟩, ⟨m.user_b_id, "match:finished", m.id⟩] })
        else
          match duelloGetQuestionIdByPos db matchId currentPos with
          | none =>
            (RevealOut.ok true total,
              { db with
                  duello_matches := db.duello_matches.map (revealFinishWrite matchId db.now),
                  events := db.events ++
                    [⟨m.user_a_id, "match:finished", m.id⟩, ⟨m.user_b_id, "match:finished", m.id⟩] })
          | some qid =>
            let db1 := if m.mode = "info"
              then infoAutofill db matchId qid m.user_a_id m.user_b_id else db
            let cnt := (db1.answers.filter (fun r =>
              r.match_id = matchId ∧ r.question_id = qid)).length
            if 2 ≤ cnt then
              let nextIdx := m.current_index + 1
              if m.total_questions ≤ nextIdx then
                let ms := db1.duello_matches.map (revealAdvanceFinishWrite matchId nextIdx db1.now)
                let evs : List Evt :=
                  [⟨m.user_a_id, "match:finished", m.id⟩, ⟨m.user_b_id, "match:finished", m.id⟩]
                (RevealOut.ok true nextIdx,
                  { db1 with duello_matches := ms, events := db1.events ++ evs })
              else
                let ms := db1.duello_matches.map (revealAdvanceWrite matchId nextIdx)
                (RevealOut.ok false nextIdx, { db1 with duello_matches := ms })
            else
              (RevealOut.ok false m.current_index, db1)

/-! ## Idle-timeout sweeper (`duelloIdleAbortTick`) -/

/-- The `WHERE` clause of the sweeper's `UPDATE`, verbatim:
`state='active' AND (COALESCE(last_seen_a, epoch) < now() - sec OR
COALESCE(last_seen_b, epoch) < now() - sec) AND current_index < total_questions`. -/
def idleAbortPred (sec now : Int) (m : MatchRow) : Bool :=
  m.state = "active" ∧
    (m.last_seen_a.getD 0 < now - sec ∨ m.last_seen_b.getD 0 < now - sec) ∧
    m.current_index < m.total_questions

/-- Per-row effect of the sweeper's guarded `UPDATE`:
`SET state='abandoned', ended_reason='idle_timeout', finished_at=now(), abandoned_at=now()`. -/
def idleAbortWrite (sec now : Int) (m : MatchRow) : MatchRow :=
  if idleAbortPred sec now m then
    { m with state := "abandoned", ended_reason := some "idle_timeout",
             finished_at := some now, abandoned_at := some now }
  else m

/-- `duelloIdleAbortTick()` for an environment-configured threshold `env`:
run the guarded update, then `sseEmit` `match:abandoned` to both participants
of every row the update returned. -/
def duelloIdleAbortTick (env : Option Int) (db : DB) : DB :=
  let sec := duelloIdleAbortSecOf env
  let updated := db.duello_matches.filter (idleAbortPred sec db.now)
  { db with
      duello_matches := db.duello_matches.map (idleAbortWrite sec db.now),
      events := db.events ++ updated.flatMap (fun m =>
        [⟨m.user_a_id, "match:abandoned", m.id⟩, ⟨m.user_b_id, "match:abandoned", m.id⟩]) }

/-! ## The operations of the subsystem as a labelled transition function -/

/-- One client call or sweeper tick of the duel subsystem. -/
inductive Op
  | invite (fromId : Nat) (toUid : Option Nat) (toCode : Option String) (modeRaw : Option String)
  | respond (inviteId userId : Nat) (action : String)
  | answer (matchId userId : Nat) (raw : Option String) (tls mls : Option Int)
  | reveal (matchId userId : Nat)
  | idle (env : Option Int)

/-- State effect of one operation. -/
def applyOp (op : Op) (db : DB) : DB :=
  match op with
  | Op.invite f tu tc mr => (duelloCreateInvite db f tu tc mr).2
  | Op.respond i u a => (duelloRespondInvite db i u a).2
  | Op.answer m u r t x => (duelloSubmitAnswer db m u r t x).2
  | Op.reveal m u => (duelloReveal db m u).2
  | Op.idle e => duelloIdleAbortTick e db

/-! ## Specification predicates for the invariant and monotonicity claims -/

/-- The row predicate of `hasActiveMatch`: the row is `active` and references `u`. -/
def activePred (u : Nat) (m : MatchRow) : Bool :=
  m.state = "active" ∧ (m.user_a_id = u ∨ m.user_b_id = u)

/-- Number of `active` matches referencing user `u`. -/
def activeCount (db : DB) (u : Nat) : Nat :=
  db.duello_matches.countP (activePred u)

/-- The single-active-match invariant: at most one `active` match references
any user. -/
def SingleActive (db : DB) : Prop := ∀ u, activeCount db u ≤ 1

/-- Does invite `inviteId` (as stored in `db`) reference user `u`? -/
def inviteTouches (db : DB) (inviteId u : Nat) : Bool :=
  match db.findInvite inviteId with
  | some i => i.from_user_id = u ∨ i.to_user_id = u
  | none => false

/-- Is a respond result a successful acceptance (i.e. a match creation)? -/
def isAccepted : RespondOut → Bool
  | RespondOut.accepted _ => true
  | _ => false

/-- Run a sequence of `respondInvite(accept)` calls, counting the successful
acceptances of invites touching `u`. -/
def countAcceptSuccTouching (u : Nat) : DB → List (Nat × Nat) → Nat
  | _, [] => 0
  | db, p :: rest =>
    (if isAccepted (duelloRespondInvite db p.1 p.2 "accept").1 = true ∧
        inviteTouches db p.1 u = true
     then 1 else 0) +
      countAcceptSuccTouching u (duelloRespondInvite db p.1 p.2 "accept").2 rest

/-- Positional "terminal rows are frozen" relation between two match tables:
every row whose state has left `active` is carried over unchanged. -/
def terminalRowsFrozen (old new : List MatchRow) : Prop :=
  old.length ≤ new.length ∧
  ∀ i (h1 : i < old.length) (h2 : i < new.length),
    (old.get ⟨i, h1⟩).state ≠ "active" → new.get ⟨i, h2⟩ = old.get ⟨i, h1⟩

/-! ## Concrete states used by counterexamples and witnesses -/

/-- Approved question 101 (answer `evet`, 3 points). -/
def exQ101 : QuestionRow := ⟨101, "evet", 3, true⟩

/-- Approved question 102 (answer `hayır`, 5 points). -/
def exQ102 : QuestionRow := ⟨102, "hayır", 5, true⟩

/-- Unapproved question 103. -/
def exQ103 : QuestionRow := ⟨103, "evet", 2, false⟩

/-- Two pending invites (ids 1, 2) both targeting user 2; no matches. -/
def dbTwoInvites : DB :=
  { now := 0, users := [⟨1, "AAA"⟩, ⟨2, "BBB"⟩, ⟨3, "CCC"⟩], questions := [exQ101],
    duello_matches := [],
    invites := [⟨1, 1, 2, "info", "pending", 1000, none⟩,
                ⟨2, 3, 2, "info", "pending", 1000, none⟩],
    match_questions := [], answers := [], events := [],
    next_match_id := 1, next_invite_id := 3 }

/-- A speed match (id 1, users 1 and 2, question 101 at position 1), no answers yet. -/
def dbSpeedOpen : DB :=
  { now := 50, users := [⟨1, "AAA"⟩, ⟨2, "BBB"⟩], questions := [exQ101],
    duello_matches :=
      [⟨1, "speed", 1, 2, "active", 12, 0, some 50, some 50, some 50, none, none, none⟩],
    invites := [], match_questions := [⟨1, 1, 101⟩], answers := [], events := [],
    next_match_id := 2, next_invite_id := 1 }

/-- The same speed match after user 1 answered question 101 (locking it and
auto-filling user 2's `bilmem` sentinel). -/
def dbSpeedLocked : DB :=
  (duelloSubmitAnswer dbSpeedOpen 1 1 (some "evet") (some 10) (some 16)).2

/-- An info-mode match (id 1, users 1 and 2, question 101 at position 1), no answers. -/
def dbInfoOpen : DB :=
  { now := 50, users := [⟨1, "AAA"⟩, ⟨2, "BBB"⟩], questions := [exQ101],
    duello_matches :=
      [⟨1, "info", 1, 2, "active", 12, 0, some 50, some 50, some 50, none, none, none⟩],
    invites := [], match_questions := [⟨1, 1, 101⟩], answers := [], events := [],
    next_match_id := 2, next_invite_id := 1 }

/-- User 1 holds an `active` match (id 9) whose `current_index` has reached
`total_questions`. -/
def dbOverActive : DB :=
  { now := 0, users := [⟨1, "AAA"⟩, ⟨2, "BBB"⟩], questions := [],
    duello_matches := [⟨9, "info", 1, 5, "active", 12, 12, none, none, none, none, none, none⟩],
    invites := [], match_questions := [], answers := [], events := [],
    next_match_id := 10, next_invite_id := 7 }

/-- A finished match (id 1). -/
def dbFinished : DB :=
  { now := 60, users := [⟨1, "AAA"⟩, ⟨2, "BBB"⟩], questions := [exQ101],
    duello_matches :=
      [⟨1, "speed", 1, 2, "finished", 12, 12, some 50, some 50, some 50, some 55, none, none⟩],
    invites := [], match_questions := [⟨1, 1, 101⟩], answers := [], events := [],
    next_match_id := 2, next_invite_id := 1 }

/-- Three active matches for the sweeper: match 1 idle (user a last seen 100 at
now=1000), match 2 idle but on its last question, match 3 fresh. -/
def dbIdle : DB :=
  { now := 1000, users := [], questions := [],
    duello_matches :=
      [⟨1, "info", 1, 2, "active", 12, 3, some 100, some 990, none, none, none, none⟩,
       ⟨2, "info", 3, 4, "active", 12, 12, some 100, some 100, none, none, none, none⟩,
       ⟨3, "info", 5, 6, "active", 12, 3, some 950, some 990, none, none, none, none⟩],
    invites := [], match_questions := [], answers := [], events := [],
    next_match_id := 4, next_invite_id := 1 }

/-- A match (id 1, 2 questions) with an empty question set and a 3-question pool. -/
def dbQSet : DB :=
  { now := 0, users := [], questions := [exQ101, exQ102, exQ103],
    duello_matches := [⟨1, "info", 1, 2, "active", 2, 0, none, none, none, none, none, none⟩],
    invites := [], match_questions := [], answers := [], events := [],
    next_match_id := 2, next_invite_id := 1 }

/-- A finished 2-question match with recorded answers for both users. -/
def dbScore : DB :=
  { now := 99, users := [⟨1, "AAA"⟩, ⟨2, "BBB"⟩], questions := [exQ101, exQ102],
    duello_matches :=
      [⟨1, "info", 1, 2, "finished", 2, 2, some 90, some 90, some 90, some 95, none, none⟩],
    invites := [], match_questions := [⟨1, 1, 101⟩, ⟨1, 2, 102⟩],
    answers :=
      [⟨1, 101, 1, "evet", 1, 16, 10⟩, ⟨1, 101, 2, "hayır", 0, 16, 8⟩,
       ⟨1, 102, 1, "bilmem", 0, 16, 0⟩, ⟨1, 102, 2, "hayır", 1, 16, 5⟩],
    events := [], next_match_id := 2, next_invite_id := 1 }

/-- An abandoned match row (id 9). -/
def rowAbandoned : MatchRow :=
  ⟨9, "info", 1, 5, "abandoned", 12, 3, none, none, none, none, some 80, some "idle_timeout"⟩

/-! ## Plumbing lemmas (record-update projections, small list facts) -/

theorem expireOldInvites_matches (db : DB) :
    (expireOldInvites db).duello_matches = db.duello_matches := rfl

theorem expireOldInvites_now (db : DB) : (expireOldInvites db).now = db.now := rfl

theorem finishOvercompleteMatches_eq (db : DB) :
    (finishOvercompleteMatches db).duello_matches =
      db.duello_matches.map (lazyFinishWrite db.now) := rfl

theorem touchLiveness_match_questions (db : DB) (a b : Nat) :
    (touchLiveness db a b).match_questions = db.match_questions := rfl

theorem touchLiveness_answers (db : DB) (a b : Nat) :
    (touchLiveness db a b).answers = db.answers := rfl

theorem touchLiveness_questions (db : DB) (a b : Nat) :
    (touchLiveness db a b).questions = db.questions := rfl

theorem touchLiveness_now (db : DB) (a b : Nat) : (touchLiveness db a b).now = db.now := rfl

theorem getQid_touch (db : DB) (a b x y : Nat) :
    duelloGetQuestionIdByPos (touchLiveness db a b) x y = duelloGetQuestionIdByPos db x y := rfl

theorem infoAutofill_matches (db : DB) (a b c d : Nat) :
    (infoAutofill db a b c d).duello_matches = db.duello_matches := rfl

theorem infoAutofill_answers (db : DB) (a b c d : Nat) :
    (infoAutofill db a b c d).answers = autofillAnswers db.answers a b c d := rfl

/-! ## C2 and C5 counterexample/witness groundwork: nothing extra needed -/

/-- C2 (counterexample): the termination writes of the reveal handler are *not*
guarded by `WHERE state='active'`: applied to a row whose state is the terminal
`'abandoned'`, both reveal termination writes overwrite it with `'finished'`
(the idle sweeper's write, by contrast, leaves the row untouched). -/
theorem reveal_write_unguarded_counterexample :
    rowAbandoned.state = "abandoned" ∧
    (revealFinishWrite 9 100 rowAbandoned).state = "finished" ∧
    (revealAdvanceFinishWrite 9 12 100 rowAbandoned).state = "finished" ∧
    idleAbortWrite 90 100 rowAbandoned = rowAbandoned := by decide

/-- C1 (counterexample): two pending invites touch user 2; accepting the first
succeeds, and the accept cancels the other pending invite, so accepting the
second fails with `NotPending` ("Davet artık pending değil"), not with the
`AlreadyActive` conflict — while still only one match is created. -/
theorem accept_conflict_error_counterexample :
    (duelloRespondInvite dbTwoInvites 1 2 "accept").1 = RespondOut.accepted 1 ∧
    (duelloRespondInvite (duelloRespondInvite dbTwoInvites 1 2 "accept").2 2 2 "accept").1
      = RespondOut.notPending ∧
    (duelloRespondInvite (duelloRespondInvite dbTwoInvites 1 2 "accept").2 2 2 "accept").1
      ≠ RespondOut.senderActive ∧
    (duelloRespondInvite (duelloRespondInvite dbTwoInvites 1 2 "accept").2 2 2 "accept").1
      ≠ RespondOut.receiverActive ∧
    ((duelloRespondInvite (duelloRespondInvite dbTwoInvites 1 2 "accept").2 2 2 "accept").2.duello_matches).length = 1 := by
  decide

/-- C3 (counterexample): in a speed match where user 1 already answered and
locked question 101 (auto-filling user 2's sentinel), a row already exists for
the (match, question); yet a subsequent submission — by either participant —
fails with `AlreadyAnswered` ("Bu soruya zaten cevap verdiniz"), not with
`QuestionLocked`, because the caller's own-row check runs first. -/
theorem speed_resubmit_already_answered_counterexample :
    (dbSpeedLocked.answers.any (fun r => r.match_id = 1 ∧ r.question_id = 101)) = true ∧
    (duelloSubmitAnswer dbSpeedLocked 1 2 (some "hayır") (some 5) (some 16)).1
      = SubmitOut.alreadyAnswered ∧
    (duelloSubmitAnswer dbSpeedLocked 1 2 (some "hayır") (some 5) (some 16)).1
      ≠ SubmitOut.questionLocked ∧
    (duelloSubmitAnswer dbSpeedLocked 1 1 (some "evet") (some 5) (some 16)).1
      = SubmitOut.alreadyAnswered := by decide

/-- C7 (counterexample): user 1 already holds an `active` match (with all of
its questions consumed), yet `createInvite(1 → 2)` succeeds instead of failing
with `AlreadyActive`, because the handler lazily finishes over-complete active
matches before the check. -/
theorem invite_overcomplete_active_counterexample :
    hasActiveMatch dbOverActive 1 = true ∧
    (duelloCreateInvite dbOverActive 1 (some 2) none none).1 = InviteOut.created 7 ∧
    (duelloCreateInvite dbOverActive 1 (some 2) none none).1 ≠ InviteOut.senderActive := by
  decide

/-- C6 (counterexample): `normalizeAnswer` maps the unrecognized input `"foo"`
to itself, outside the canonical vocabulary, and the info-mode answer path
stores that out-of-vocabulary value in `duello_answers`. -/
theorem normalize_not_total_counterexample :
    normalizeAnswer (some "foo") = "foo" ∧
    duelloVocab.contains (normalizeAnswer (some "foo")) = false ∧
    (duelloSubmitAnswer dbInfoOpen 1 1 (some "foo") (some 5) (some 16)).1 = SubmitOut.ok false ∧
    (duelloSubmitAnswer dbInfoOpen 1 1 (some "foo") (some 5) (some 16)).2.answers.any
      (fun r => duelloVocab.contains r.answer = false) = true := by decide

/-! ## C9: the two score aggregations agree -/

theorem sum_if_eq_sum_filter (rows : List (AnswerRow × QuestionRow)) (u : Nat) :
    (rows.map (fun rq => if rq.1.user_id = u then scoreCase rq else 0)).sum =
      ((rows.filter (fun rq => rq.1.user_id = u)).map scoreCase).sum := by
  induction rows with
  | nil => rfl
  | cons h t ih =>
    by_cases hu : h.1.user_id = u
    · simp [List.filter_cons, hu, ih]
    · simp [List.filter_cons, hu, ih]

/-- C9: for a finished match and each participant, the running score computed
by the status endpoint (`duelloScores`: signed per-answer sum with
`bilmem → 0`, correct → `+point`, incorrect → `−point`) equals the `score`
reported by the summary endpoint (`duelloMatchTotals`) for the same user: the
two independently written SQL aggregations compute the same function of the
recorded answers. -/
theorem score_roundtrip (db : DB) (mid : Nat) (m : MatchRow)
    (hm : db.findMatch mid = some m) (hfin : m.state = "finished") :
    (duelloScores db mid m.user_a_id m.user_b_id).1
        = duelloMatchTotalsScore db mid m.user_a_id ∧
    (duelloScores db mid m.user_a_id m.user_b_id).2
        = duelloMatchTotalsScore db mid m.user_b_id := by
  exact ⟨sum_if_eq_sum_filter (duelloScoreRows db mid) m.user_a_id,
         sum_if_eq_sum_filter (duelloScoreRows db mid) m.user_b_id⟩

/-- C9 witness: concrete finished match, both participants. -/
theorem score_roundtrip_witness :
    (duelloScores dbScore 1 1 2).1 = duelloMatchTotalsScore dbScore 1 1 ∧
    (duelloScores dbScore 1 1 2).2 = duelloMatchTotalsScore dbScore 1 2 :=
  score_roundtrip dbScore 1
    ⟨1, "info", 1, 2, "finished", 2, 2, some 90, some 90, some 90, some 95, none, none⟩
    (by decide) (by decide)

/-! ## C5: idle sweep characterization -/

/-- C5: a sweeper tick abandons (state `abandoned`, `ended_reason='idle_timeout'`)
exactly those rows satisfying the update's `WHERE` clause — active, either
side's `last_seen` (NULL as epoch) older than the clamped threshold
(30–600 s, default 90), `current_index < total_questions` — leaves every other
row untouched, and notifies both participants of each abandoned match. -/
theorem idle_sweep_characterization :
    (∀ env, 30 ≤ duelloIdleAbortSecOf env ∧ duelloIdleAbortSecOf env ≤ 600) ∧
    duelloIdleAbortSecOf none = 90 ∧
    (∀ env db i (h1 : i < db.duello_matches.length)
        (h2 : i < (duelloIdleAbortTick env db).duello_matches.length),
      (idleAbortPred (duelloIdleAbortSecOf env) db.now (db.duello_matches.get ⟨i, h1⟩) = true →
        (duelloIdleAbortTick env db).duello_matches.get ⟨i, h2⟩ =
          { db.duello_matches.get ⟨i, h1⟩ with
              state := "abandoned", ended_reason := some "idle_timeout",
              finished_at := some db.now, abandoned_at := some db.now }) ∧
      (idleAbortPred (duelloIdleAbortSecOf env) db.now (db.duello_matches.get ⟨i, h1⟩) = false →
        (duelloIdleAbortTick env db).duello_matches.get ⟨i, h2⟩ =
          db.duello_matches.get ⟨i, h1⟩)) ∧
    (∀ env db, (duelloIdleAbortTick env db).events = db.events ++
      (db.duello_matches.filter (idleAbortPred (duelloIdleAbortSecOf env) db.now)).flatMap
        (fun m => [⟨m.user_a_id, "match:abandoned", m.id⟩,
                   ⟨m.user_b_id, "match:abandoned", m.id⟩])) := by
  refine ⟨fun env => ⟨le_max_left _ _, max_le (by norm_num) (min_le_left _ _)⟩, rfl,
    fun env db i h1 h2 => ⟨fun hp => ?_, fun hp => ?_⟩, fun env db => rfl⟩
  · show (db.duello_matches.map (idleAbortWrite (duelloIdleAbortSecOf env) db.now)).get ⟨i, h2⟩ = _
    simp only [List.get_eq_getElem] at hp ⊢
    simp only [List.getElem_map, idleAbortWrite, hp, if_true]
  · show (db.duello_matches.map (idleAbortWrite (duelloIdleAbortSecOf env) db.now)).get ⟨i, h2⟩ = _
    simp only [List.get_eq_getElem] at hp ⊢
    simp only [List.getElem_map, idleAbortWrite, hp]
    simp

/-- C5 witness: at the concrete three-match state, the threshold defaults to
90 s, the stale mid-match row 1 is abandoned, and the fresh row 3 is untouched. -/
theorem idle_sweep_characterization_witness :
    duelloIdleAbortSecOf none = 90 ∧
    ((duelloIdleAbortTick none dbIdle).duello_matches.get ⟨0, by decide⟩ =
      { dbIdle.duello_matches.get ⟨0, by decide⟩ with
          state := "abandoned", ended_reason := some "idle_timeout",
          finished_at := some dbIdle.now, abandoned_at := some dbIdle.now }) ∧
    ((duelloIdleAbortTick none dbIdle).duello_matches.get ⟨2, by decide⟩ =
      dbIdle.duello_matches.get ⟨2, by decide⟩) := by
  refine ⟨idle_sweep_characterization.2.1, ?_, ?_⟩
  · exact (idle_sweep_characterization.2.2.1 none dbIdle 0 (by decide) (by decide)).1 (by decide)
  · exact (idle_sweep_characterization.2.2.1 none dbIdle 2 (by decide) (by decide)).2 (by decide)

/-! ## C4: reveal is idempotent -/

theorem touch_preserves_idx_state (db : DB) (a b : Nat) :
    (touchLiveness db a b).duello_matches.map (fun x => (x.current_index, x.state)) =
      db.duello_matches.map (fun x => (x.current_index, x.state)) := by
  unfold touchLiveness
  dsimp only
  rw [List.map_map]
  apply List.map_congr_left
  intro x hx
  by_cases hid : x.id = a
  · simp [touchWrite, hid]
  · simp [touchWrite, hid]

/-- C4: (i) a reveal on a match whose state is already `finished` returns
`finished=true` with the stored `current_index` and leaves every match row
unchanged, so repeated calls after completion are no-ops; (ii) a reveal that —
after the info-mode auto-fill — finds fewer than 2 recorded answers for the
current question returns `finished=false` and changes no row's
`current_index` or `state`. -/
theorem reveal_idempotent :
    (∀ db mid uid (m : MatchRow), mid ≠ 0 → uid ≠ 0 → db.findMatch mid = some m →
      m.state = "finished" →
      (duelloReveal db mid uid).1 = RevealOut.ok true m.current_index ∧
      (duelloReveal db mid uid).2.duello_matches = db.duello_matches) ∧
    (∀ db mid uid (m : MatchRow) qid, mid ≠ 0 → uid ≠ 0 → db.findMatch mid = some m →
      m.state = "active" → inThisMatch m uid = true →
      m.current_index + 1 ≤ m.total_questions →
      duelloGetQuestionIdByPos db mid (m.current_index + 1) = some qid →
      ((if m.mode = "info"
          then autofillAnswers db.answers mid qid m.user_a_id m.user_b_id
          else db.answers).filter
        (fun r => r.match_id = mid ∧ r.question_id = qid)).length < 2 →
      (duelloReveal db mid uid).1 = RevealOut.ok false m.current_index ∧
      (duelloReveal db mid uid).2.duello_matches.map (fun x => (x.current_index, x.state)) =
        db.duello_matches.map (fun x => (x.current_index, x.state))) := by
  constructor
  · intro db mid uid m hmid huid hm hfin
    have hne : ¬(mid = 0 ∨ uid = 0) := by
      rintro (h | h)
      · exact hmid h
      · exact huid h
    have hstate : m.state ≠ "active" := by rw [hfin]; decide
    unfold duelloReveal
    rw [if_neg hne, hm]
    dsimp only
    rw [if_pos hstate]
    exact ⟨rfl, rfl⟩
  · intro db mid uid m qid hmid huid hm hact hin hpos hq hcnt
    have hne : ¬(mid = 0 ∨ uid = 0) := by
      rintro (h | h)
      · exact hmid h
      · exact huid h
    have hstate : ¬ m.state ≠ "active" := by rw [hact]; simp
    have hnp : ¬ (m.total_questions < m.current_index + 1) := by omega
    have hpart : ¬ ¬ inThisMatch m uid = true := by simp [hin]
    unfold duelloReveal
    rw [if_neg hne, hm]
    dsimp only
    rw [if_neg hstate, if_neg hpart, if_neg hnp, getQid_touch, hq]
    dsimp only
    by_cases hmode : m.mode = "info"
    · rw [if_pos hmode]
      have hc2 : ¬ (2 ≤ ((infoAutofill (touchLiveness db mid uid) mid qid
          m.user_a_id m.user_b_id).answers.filter
            (fun r => r.match_id = mid ∧ r.question_id = qid)).length) := by
        rw [infoAutofill_answers, touchLiveness_answers]
        rw [if_pos hmode] at hcnt
        omega
      rw [if_neg hc2]
      refine ⟨rfl, ?_⟩
      show (infoAutofill (touchLiveness db mid uid) mid qid m.user_a_id
          m.user_b_id).duello_matches.map (fun x => (x.current_index, x.state)) = _
      rw [infoAutofill_matches]
      exact touch_preserves_idx_state db mid uid
    · rw [if_neg hmode]
      have hc2 : ¬ (2 ≤ ((touchLiveness db mid uid).answers.filter
            (fun r => r.match_id = mid ∧ r.question_id = qid)).length) := by
        rw [touchLiveness_answers]
        rw [if_neg hmode] at hcnt
        omega
      rw [if_neg hc2]
      exact ⟨rfl, touch_preserves_idx_state db mid uid⟩

/-- C4 witness: a finished match revealed again (part i), and an open speed
match with no answers revealed early (part ii). -/
theorem reveal_idempotent_witness :
    ((duelloReveal dbFinished 1 1).1 = RevealOut.ok true 12 ∧
      (duelloReveal dbFinished 1 1).2.duello_matches = dbFinished.duello_matches) ∧
    ((duelloReveal dbSpeedOpen 1 1).1 = RevealOut.ok false 0 ∧
      (duelloReveal dbSpeedOpen 1 1).2.duello_matches.map (fun x => (x.current_index, x.state)) =
        dbSpeedOpen.duello_matches.map (fun x => (x.current_index, x.state))) := by
  constructor
  · exact reveal_idempotent.1 dbFinished 1 1
      ⟨1, "speed", 1, 2, "finished", 12, 12, some 50, some 50, some 50, some 55, none, none⟩
      (by decide) (by decide) (by decide) (by decide)
  · exact reveal_idempotent.2 dbSpeedOpen 1 1
      ⟨1, "speed", 1, 2, "active", 12, 0, some 50, some 50, some 50, none, none, none⟩
      101 (by decide) (by decide) (by decide) (by decide) (by decide) (by decide)
      (by decide) (by decide)

/-! ## C10: lazy completion of over-complete matches on invite creation -/

theorem any_congr_mem {α : Type} (l : List α) (p q : α → Bool)
    (h : ∀ x ∈ l, p x = q x) : l.any p = l.any q := by
  induction l with
  | nil => rfl
  | cons a t ih =>
    simp only [List.any_cons, h a (by simp)]
    rw [ih (fun x hx => h x (by simp [hx]))]

/-- After the lazy-expiry and lazy-finish steps of the invite handler, a user
counts as holding an active match exactly when they hold one that still has
questions remaining. -/
theorem hasActiveMatch_lazyFinish (db : DB) (u : Nat) :
    hasActiveMatch (finishOvercompleteMatches (expireOldInvites db)) u =
      db.duello_matches.any (fun m =>
        m.state = "active" ∧ (m.user_a_id = u ∨ m.user_b_id = u) ∧
          m.current_index < m.total_questions) := by
  show (db.duello_matches.map (lazyFinishWrite db.now)).any _ = _
  rw [List.any_map]
  apply any_congr_mem
  intro x hx
  by_cases hg : x.state = "active" ∧ x.total_questions ≤ x.current_index
  · have hle := hg.2
    simp [Function.comp, lazyFinishWrite, if_pos hg, Nat.not_lt.mpr hle]
  · rw [Function.comp_apply, lazyFinishWrite, if_neg hg]
    by_cases hs : x.state = "active"
    · have hlt : x.current_index < x.total_questions := by
        by_contra htl
        exact hg ⟨hs, by omega⟩
      simp [hs, hlt]
    · simp [hs]

/-- C10: (i) the lazy-finish write transitions to `finished` (stamping
`finished_at`) exactly the active rows whose `current_index` has reached
`total_questions`, with no restriction to the two invite parties; (ii) every
`createInvite` call that passes request validation applies this write to the
whole match table (the state in which the `AlreadyActive` checks then run);
(iii) consequently, parties all of whose active matches are over-complete are
not rejected with `AlreadyActive`. -/
theorem lazy_finish_on_invite :
    (∀ now (m : MatchRow),
      (m.state = "active" ∧ m.total_questions ≤ m.current_index →
        lazyFinishWrite now m = { m with state := "finished", finished_at := some now }) ∧
      (¬(m.state = "active" ∧ m.total_questions ≤ m.current_index) →
        lazyFinishWrite now m = m)) ∧
    (∀ db fromId toUid toCode modeRaw tu,
      fromId ≠ 0 → findUserByIdOrCode db toUid toCode = some tu →
      (["info", "speed"].contains (strLower (modeRaw.getD "info"))) = true →
      fromId ≠ tu.id →
      (duelloCreateInvite db fromId toUid toCode modeRaw).2.duello_matches =
        db.duello_matches.map (lazyFinishWrite db.now)) ∧
    (∀ db fromId toUid toCode modeRaw tu,
      fromId ≠ 0 → findUserByIdOrCode db toUid toCode = some tu →
      (["info", "speed"].contains (strLower (modeRaw.getD "info"))) = true →
      fromId ≠ tu.id →
      db.duello_matches.any (fun m => m.state = "active" ∧
        (m.user_a_id = fromId ∨ m.user_b_id = fromId) ∧
        m.current_index < m.total_questions) = false →
      db.duello_matches.any (fun m => m.state = "active" ∧
        (m.user_a_id = tu.id ∨ m.user_b_id = tu.id) ∧
        m.current_index < m.total_questions) = false →
      (duelloCreateInvite db fromId toUid toCode modeRaw).1 ≠ InviteOut.senderActive ∧
      (duelloCreateInvite db fromId toUid toCode modeRaw).1 ≠ InviteOut.receiverActive) := by
  refine ⟨fun now m => ⟨fun hg => ?_, fun hg => ?_⟩,
    fun db fromId toUid toCode modeRaw tu hf htu hmode hself => ?_,
    fun db fromId toUid toCode modeRaw tu hf htu hmode hself hafrom hato => ?_⟩
  · rw [lazyFinishWrite, if_pos hg]
  · rw [lazyFinishWrite, if_neg hg]
  · have hmode2 : ¬ ¬ ((["info", "speed"].contains (strLower (modeRaw.getD "info"))) = true) :=
      not_not_intro hmode
    unfold duelloCreateInvite
    rw [if_neg hf, htu]
    dsimp only
    rw [if_neg hmode2, if_neg hself]
    split_ifs <;> rfl
  · have hmode2 : ¬ ¬ ((["info", "speed"].contains (strLower (modeRaw.getD "info"))) = true) :=
      not_not_intro hmode
    have hA : hasActiveMatch (finishOvercompleteMatches (expireOldInvites db)) fromId = false := by
      rw [hasActiveMatch_lazyFinish]; exact hafrom
    have hB : hasActiveMatch (finishOvercompleteMatches (expireOldInvites db)) tu.id = false := by
      rw [hasActiveMatch_lazyFinish]; exact hato
    unfold duelloCreateInvite
    rw [if_neg hf, htu]
    dsimp only
    rw [if_neg hmode2, if_neg hself]
    rw [if_neg (by simp [hA]), if_neg (by simp [hB])]
    split_ifs
    · exact ⟨by simp, by simp⟩
    · exact ⟨by simp, by simp⟩

/-- C10 witness: user 1's only active match is over-complete; the invite call
finishes it system-wide and is not rejected with `AlreadyActive`. -/
theorem lazy_finish_on_invite_witness :
    ((duelloCreateInvite dbOverActive 1 (some 2) none none).2.duello_matches =
      dbOverActive.duello_matches.map (lazyFinishWrite dbOverActive.now)) ∧
    (duelloCreateInvite dbOverActive 1 (some 2) none none).1 ≠ InviteOut.senderActive := by
  refine ⟨lazy_finish_on_invite.2.1 dbOverActive 1 (some 2) none none ⟨2, "BBB"⟩
      (by decide) (by decide) (by decide) (by decide), ?_⟩
  exact (lazy_finish_on_invite.2.2 dbOverActive 1 (some 2) none none ⟨2, "BBB"⟩
      (by decide) (by decide) (by decide) (by decide) (by decide) (by decide)).1

/-! ## C6: normalization vocabulary characterization -/

theorem normalizeAnswer_eq_core (v : Option String) :
    normalizeAnswer v = normCore (canonAnswer v) := by
  cases v <;> rfl

theorem normCore_spec (s : String) :
    (duelloVocab.contains (normCore s) = true ↔
      recognizedAnswerTokens.contains s = true) ∧
    (recognizedAnswerTokens.contains s = false → normCore s = s) := by
  unfold normCore duelloVocab recognizedAnswerTokens
  refine ⟨⟨fun h => ?_, fun h => ?_⟩, fun h => ?_⟩
  · split_ifs at h with h1 h2 h3 h4
    all_goals try simp_all [List.contains_cons, beq_iff_eq]
    all_goals tauto
  · split_ifs with h1 h2 h3 h4
    all_goals try simp_all [List.contains_cons, beq_iff_eq]
    all_goals tauto
  · split_ifs with h1 h2 h3 h4
    all_goals try simp_all [List.contains_cons, beq_iff_eq]
    all_goals tauto

/-- C6 (amended): `normalizeAnswer` lands in the canonical vocabulary
`{evet, hayır, bilmem}` exactly when the input's canonical form (trimmed,
lower-cased, `hayir → hayır`) is one of the recognized tokens; any other input
is returned verbatim in canonical form — so normalization is *not* total into
the vocabulary. -/
theorem normalize_vocab_amended :
    ∀ v : Option String,
      (duelloVocab.contains (normalizeAnswer v) = true ↔
        recognizedAnswerTokens.contains (canonAnswer v) = true) ∧
      (recognizedAnswerTokens.contains (canonAnswer v) = false →
        normalizeAnswer v = canonAnswer v) := by
  intro v
  rw [normalizeAnswer_eq_core]
  exact normCore_spec (canonAnswer v)

/-- C6 witness: the unrecognized input `" XYZ "` is stored as its canonical
form `"xyz"`. -/
theorem normalize_vocab_amended_witness :
    recognizedAnswerTokens.contains (canonAnswer (some " XYZ ")) = false ∧
    normalizeAnswer (some " XYZ ") = canonAnswer (some " XYZ ") :=
  ⟨by decide, (normalize_vocab_amended (some " XYZ ")).2 (by decide)⟩

/-! ## C3: speed-mode first-writer lock -/

theorem opponentId_ne (m : MatchRow) (uid : Nat) (hin : inThisMatch m uid = true)
    (hab : m.user_a_id ≠ m.user_b_id) : opponentId m uid ≠ uid := by
  unfold inThisMatch at hin
  unfold opponentId
  simp only [decide_eq_true_eq] at hin
  by_cases h : m.user_a_id = uid
  · rw [if_pos h]
    intro e
    exact hab (h.trans e.symm)
  · rw [if_neg h]
    exact h

/-- C3 (amended): in a speed-mode match, (i) if the caller already has a
recorded answer for the current question the call fails with `AlreadyAnswered`
(this path runs first, so a locked question's own writer is *not* answered
with `QuestionLocked`); (ii) if the caller has no row but any answer row
already exists for the (match, question) the conditional insert is rejected
and the call fails with `QuestionLocked`; in both failure cases nothing is
inserted; (iii) if no row exists the insert succeeds, the caller's normalized
answer is recorded and an unknown (`bilmem`, `is_correct=0`) sentinel is
immediately inserted for the opponent, so afterwards each participant has
exactly one recorded answer for the question. -/
theorem speed_first_writer_lock_amended :
    ∀ db mid uid (m : MatchRow) qid raw tls mls norm,
      mid ≠ 0 → uid ≠ 0 → db.findMatch mid = some m →
      m.state = "active" → inThisMatch m uid = true → m.mode = "speed" →
      m.user_a_id ≠ m.user_b_id →
      duelloGetQuestionIdByPos db mid (m.current_index + 1) = some qid →
      normalizeDuelloAnswer m.mode raw = some norm →
      ((db.answers.any (fun r =>
          r.match_id = mid ∧ r.question_id = qid ∧ r.user_id = uid)) = true →
        (duelloSubmitAnswer db mid uid raw tls mls).1 = SubmitOut.alreadyAnswered ∧
        (duelloSubmitAnswer db mid uid raw tls mls).2.answers = db.answers) ∧
      ((db.answers.any (fun r =>
          r.match_id = mid ∧ r.question_id = qid ∧ r.user_id = uid)) = false →
       (db.answers.any (fun r => r.match_id = mid ∧ r.question_id = qid)) = true →
        (duelloSubmitAnswer db mid uid raw tls mls).1 = SubmitOut.questionLocked ∧
        (duelloSubmitAnswer db mid uid raw tls mls).2.answers = db.answers) ∧
      ((db.answers.any (fun r => r.match_id = mid ∧ r.question_id = qid)) = false →
        (duelloSubmitAnswer db mid uid raw tls mls).1 = SubmitOut.ok true ∧
        (duelloSubmitAnswer db mid uid raw tls mls).2.answers = db.answers ++
          [⟨mid, qid, uid, norm,
             (if (db.questions.find? (fun q => q.id = qid)).map (fun q => q.correct_answer)
                 = some norm then 1 else 0),
             submitMaxSec mls, submitLeftSec tls mls⟩,
           ⟨mid, qid, opponentId m uid, "bilmem", 0, submitMaxSec mls, 0⟩] ∧
        ((duelloSubmitAnswer db mid uid raw tls mls).2.answers.countP (fun r =>
            r.match_id = mid ∧ r.question_id = qid ∧ r.user_id = uid)) = 1 ∧
        ((duelloSubmitAnswer db mid uid raw tls mls).2.answers.countP (fun r =>
            r.match_id = mid ∧ r.question_id = qid ∧
              r.user_id = opponentId m uid)) = 1) := by
  intro db mid uid m qid raw tls mls norm hmid huid hm hact hin hmode hab hq hnorm
  have hne : ¬(mid = 0 ∨ uid = 0) := by
    rintro (h | h)
    · exact hmid h
    · exact huid h
  have hstate : ¬ m.state ≠ "active" := by rw [hact]; simp
  have hpart : ¬ ¬ inThisMatch m uid = true := by simp [hin]
  have hopp : opponentId m uid ≠ uid := opponentId_ne m uid hin hab
  unfold duelloSubmitAnswer
  rw [if_neg hne, hm]
  dsimp only
  rw [if_neg hstate, if_neg hpart, getQid_touch, hq]
  dsimp only
  rw [hnorm]
  dsimp only
  rw [touchLiveness_answers, touchLiveness_questions]
  refine ⟨fun hmine => ?_, fun hmine hlock => ?_, fun hempty => ?_⟩
  · rw [if_pos hmine]
    exact ⟨rfl, rfl⟩
  · rw [if_neg (by rw [hmine]; exact Bool.false_ne_true), if_pos hmode, if_pos hlock]
    exact ⟨rfl, rfl⟩
  · have hforall := List.any_eq_false.mp hempty
    have hmine : (db.answers.any (fun r =>
        r.match_id = mid ∧ r.question_id = qid ∧ r.user_id = uid)) = false := by
      rw [List.any_eq_false]
      intro r hr hc
      simp only [decide_eq_true_eq] at hc
      exact hforall r hr (by simp [hc.1, hc.2.1])
    have hocf : ∀ (row : AnswerRow), row.user_id = uid →
        ((db.answers ++ [row]).any (fun r =>
          r.match_id = mid ∧ r.question_id = qid ∧
            r.user_id = opponentId m uid)) = false := by
      intro row hrow
      rw [List.any_eq_false]
      intro r hr
      rw [List.mem_append] at hr
      rcases hr with hr | hr
      · intro hc
        simp only [decide_eq_true_eq] at hc
        exact hforall r hr (by simp [hc.1, hc.2.1])
      · rw [List.mem_singleton] at hr
        subst hr
        intro hc
        simp only [decide_eq_true_eq] at hc
        have h2 := hc.2.2
        rw [hrow] at h2
        exact hopp h2.symm
    have h0own : db.answers.countP (fun r =>
        r.match_id = mid ∧ r.question_id = qid ∧ r.user_id = uid) = 0 := by
      rw [List.countP_eq_zero]
      intro r hr hc
      simp only [decide_eq_true_eq] at hc
      exact hforall r hr (by simp [hc.1, hc.2.1])
    have h0opp : db.answers.countP (fun r =>
        r.match_id = mid ∧ r.question_id = qid ∧ r.user_id = opponentId m uid) = 0 := by
      rw [List.countP_eq_zero]
      intro r hr hc
      simp only [decide_eq_true_eq] at hc
      exact hforall r hr (by simp [hc.1, hc.2.1])
    rw [if_neg (by rw [hmine]; exact Bool.false_ne_true), if_pos hmode,
        if_neg (by rw [hempty]; exact Bool.false_ne_true),
        if_neg (by rw [hocf _ rfl]; exact Bool.false_ne_true)]
    refine ⟨rfl, by simp, ?_, ?_⟩
    · show (((db.answers ++ _) ++ _).countP (fun r =>
          r.match_id = mid ∧ r.question_id = qid ∧ r.user_id = uid)) = 1
      rw [List.countP_append, List.countP_append, h0own]
      simp [List.countP_cons, Ne.symm hopp, hopp]
    · show (((db.answers ++ _) ++ _).countP (fun r =>
          r.match_id = mid ∧ r.question_id = qid ∧ r.user_id = opponentId m uid)) = 1
      rw [List.countP_append, List.countP_append, h0opp]
      simp [List.countP_cons, Ne.symm hopp, hopp]

/-- C3 witness: user 1 submits first in the open speed match; both
participants end up with exactly one recorded answer for question 101. -/
theorem speed_first_writer_lock_witness :
    (duelloSubmitAnswer dbSpeedOpen 1 1 (some "evet") (some 10) (some 16)).1
        = SubmitOut.ok true ∧
    ((duelloSubmitAnswer dbSpeedOpen 1 1 (some "evet") (some 10) (some 16)).2.answers.countP
        (fun r => r.match_id = 1 ∧ r.question_id = 101 ∧ r.user_id = 1)) = 1 ∧
    ((duelloSubmitAnswer dbSpeedOpen 1 1 (some "evet") (some 10) (some 16)).2.answers.countP
        (fun r => r.match_id = 1 ∧ r.question_id = 101 ∧ r.user_id = 2)) = 1 := by
  have h := (speed_first_writer_lock_amended dbSpeedOpen 1 1
      ⟨1, "speed", 1, 2, "active", 12, 0, some 50, some 50, some 50, none, none, none⟩
      101 (some "evet") (some 10) (some 16) "evet"
      (by decide) (by decide) (by decide) (by decide) (by decide) (by decide)
      (by decide) (by decide) (by decide)).2.2 (by decide)
  exact ⟨h.1, h.2.2.1, h.2.2.2⟩

/-! ## C8: the question-set generator is deterministic and idempotent -/

theorem insOrd_length {α : Type} (lt : α → α → Bool) (x : α) (l : List α) :
    (insOrd lt x l).length = l.length + 1 := by
  induction l with
  | nil => rfl
  | cons y ys ih =>
    by_cases h : lt x y = true
    · simp [insOrd, h]
    · simp [insOrd, h, ih]

theorem sortOrd_length {α : Type} (lt : α → α → Bool) (l : List α) :
    (sortOrd lt l).length = l.length := by
  induction l with
  | nil => rfl
  | cons x xs ih => simp [sortOrd, insOrd_length, ih]

theorem mqRowsFor_match (matchId : Nat) (ids : List Nat) :
    ∀ pos, ∀ r ∈ mqRowsFor matchId ids pos, r.match_id = matchId := by
  induction ids with
  | nil => intro pos r hr; simp [mqRowsFor] at hr
  | cons qid rest ih =>
    intro pos r hr
    rw [mqRowsFor, List.mem_cons] at hr
    rcases hr with hr | hr
    · rw [hr]
    · exact ih (pos + 1) r hr

theorem mqInsertLoop_clean (matchId : Nat) (ids : List Nat) :
    ∀ (pos : Nat) (tbl : List MQRow),
      (∀ r ∈ tbl, r.match_id = matchId → r.pos < pos) →
      mqInsertLoop matchId ids pos tbl = tbl ++ mqRowsFor matchId ids pos := by
  induction ids with
  | nil =>
    intro pos tbl h
    simp [mqInsertLoop, mqRowsFor]
  | cons qid rest ih =>
    intro pos tbl h
    have hany : (tbl.any (fun r => r.match_id = matchId ∧ r.pos = pos)) = false := by
      rw [List.any_eq_false]
      intro r hr hc
      simp only [decide_eq_true_eq] at hc
      have := h r hr hc.1
      omega
    have hnext : ∀ r ∈ tbl ++ [(⟨matchId, pos, qid⟩ : MQRow)],
        r.match_id = matchId → r.pos < pos + 1 := by
      intro r hr hmr
      rw [List.mem_append] at hr
      rcases hr with hr | hr
      · have := h r hr hmr
        omega
      · rw [List.mem_singleton] at hr
        rw [hr]
        show pos < pos + 1
        omega
    have step := ih (pos + 1) (tbl ++ [(⟨matchId, pos, qid⟩ : MQRow)]) hnext
    rw [mqInsertLoop, if_neg (by rw [hany]; exact Bool.false_ne_true), step,
      mqRowsFor, List.append_assoc]
    rfl

theorem sortOrd_mqRowsFor (matchId : Nat) (ids : List Nat) :
    ∀ pos, sortOrd (fun r s => r.pos < s.pos) (mqRowsFor matchId ids pos) =
      mqRowsFor matchId ids pos := by
  induction ids with
  | nil => intro pos; rfl
  | cons qid rest ih =>
    intro pos
    rw [mqRowsFor, sortOrd, ih (pos + 1)]
    cases rest with
    | nil => rfl
    | cons q2 r2 =>
      rw [mqRowsFor, insOrd, if_pos (by simp)]

theorem selectMQRows_clean_append (tbl : List MQRow) (matchId : Nat) (ids : List Nat)
    (pos : Nat) (hclean : ∀ r ∈ tbl, ¬ r.match_id = matchId) :
    selectMQRows (tbl ++ mqRowsFor matchId ids pos) matchId = mqRowsFor matchId ids pos := by
  unfold selectMQRows
  rw [List.filter_append]
  have h1 : tbl.filter (fun r => r.match_id = matchId) = [] := by
    rw [List.filter_eq_nil_iff]
    intro r hr
    simp only [decide_eq_true_eq]
    exact hclean r hr
  have h2 : (mqRowsFor matchId ids pos).filter (fun r => r.match_id = matchId) =
      mqRowsFor matchId ids pos := by
    rw [List.filter_eq_self]
    intro r hr
    simp only [decide_eq_true_eq]
    exact mqRowsFor_match matchId ids pos r hr
  rw [h1, h2, List.nil_append, sortOrd_mqRowsFor]

theorem ensure_existing (hash : String → String) (db : DB) (m : MatchRow)
    (hex : 0 < (selectMQRows db.match_questions m.id).length) :
    ensureDuelloQuestionSet hash db m = (selectMQRows db.match_questions m.id, db) := by
  unfold ensureDuelloQuestionSet
  rw [if_pos hex]

theorem ensure_fresh (hash : String → String) (db : DB) (m : MatchRow)
    (hclean : ∀ r ∈ db.match_questions, ¬ r.match_id = m.id) :
    (ensureDuelloQuestionSet hash db m).1 =
      mqRowsFor m.id (duelloChosenQuestionIds hash db m) 1 ∧
    (ensureDuelloQuestionSet hash db m).2 =
      { db with match_questions :=
          db.match_questions ++ mqRowsFor m.id (duelloChosenQuestionIds hash db m) 1 } := by
  have hfil : db.match_questions.filter (fun r => r.match_id = m.id) = [] := by
    rw [List.filter_eq_nil_iff]
    intro r hr
    simp only [decide_eq_true_eq]
    exact hclean r hr
  have hsel : selectMQRows db.match_questions m.id = [] := by
    unfold selectMQRows
    rw [hfil]
    rfl
  have hloop : mqInsertLoop m.id (duelloChosenQuestionIds hash db m) 1 db.match_questions =
      db.match_questions ++ mqRowsFor m.id (duelloChosenQuestionIds hash db m) 1 :=
    mqInsertLoop_clean m.id (duelloChosenQuestionIds hash db m) 1 db.match_questions
      (fun r hr hmr => absurd hmr (hclean r hr))
  unfold ensureDuelloQuestionSet
  rw [hsel, if_neg (by simp)]
  dsimp only
  constructor
  · show selectMQRows
        (mqInsertLoop m.id (duelloChosenQuestionIds hash db m) 1 db.match_questions) m.id = _
    rw [hloop, selectMQRows_clean_append db.match_questions m.id _ 1 hclean]
  · show ({ db with match_questions :=
        mqInsertLoop m.id (duelloChosenQuestionIds hash db m) 1 db.match_questions } : DB) = _
    rw [hloop]

/-- C8: (i) if `MatchQuestion` rows for the match already exist,
`ensureDuelloQuestionSet` returns them and leaves the state unchanged; (ii) on
a state with no rows for the match it persists exactly the approved-pool ids
ordered by the match-seeded hash key `hash(match_id ++ "-" ++ question_id)`,
at positions `1..N` (`N` = `total_questions`, default 12); (iii) a repeated
call converges: it returns the same rows and changes nothing (the generation
is a pure function of the match id, the pool, and the hash, hence
deterministic). -/
theorem question_set_deterministic_idempotent :
    ∀ (hash : String → String) (db : DB) (m : MatchRow),
      (0 < (selectMQRows db.match_questions m.id).length →
        ensureDuelloQuestionSet hash db m = (selectMQRows db.match_questions m.id, db)) ∧
      ((∀ r ∈ db.match_questions, ¬ r.match_id = m.id) →
        (ensureDuelloQuestionSet hash db m).1 =
          mqRowsFor m.id (duelloChosenQuestionIds hash db m) 1 ∧
        (ensureDuelloQuestionSet hash db m).2 =
          { db with match_questions :=
              db.match_questions ++ mqRowsFor m.id (duelloChosenQuestionIds hash db m) 1 }) ∧
      (ensureDuelloQuestionSet hash ((ensureDuelloQuestionSet hash db m).2) m =
        ((ensureDuelloQuestionSet hash db m).1, (ensureDuelloQuestionSet hash db m).2)) := by
  intro hash db m
  refine ⟨ensure_existing hash db m, ensure_fresh hash db m, ?_⟩
  by_cases hex : 0 < (selectMQRows db.match_questions m.id).length
  · rw [ensure_existing hash db m hex]
    exact ensure_existing hash db m hex
  · have hlen : (selectMQRows db.match_questions m.id).length = 0 := by omega
    have hfil : db.match_questions.filter (fun r => r.match_id = m.id) = [] := by
      have h2 : (db.match_questions.filter (fun r => r.match_id = m.id)).length = 0 := by
        have := sortOrd_length (fun r s : MQRow => decide (r.pos < s.pos))
          (db.match_questions.filter (fun r => r.match_id = m.id))
        unfold selectMQRows at hlen
        omega
      exact List.length_eq_zero.mp h2
    have hclean : ∀ r ∈ db.match_questions, ¬ r.match_id = m.id := by
      intro r hr hmr
      have := List.filter_eq_nil_iff.mp hfil r hr
      simp only [decide_eq_true_eq] at this
      exact this hmr
    obtain ⟨h1, h2⟩ := ensure_fresh hash db m hclean
    rw [h1, h2]
    cases hids : duelloChosenQuestionIds hash db m with
    | nil =>
      rw [hids] at h1 h2
      have hdb : ({ db with match_questions :=
          db.match_questions ++ mqRowsFor m.id [] 1 } : DB) = db := by
        show ({ db with match_questions := db.match_questions ++ [] } : DB) = db
        rw [List.append_nil]
      rw [hdb, Prod.ext_iff]
      refine ⟨h1, ?_⟩
      rw [h2]
      exact hdb
    | cons q qs =>
      have hclean2 : selectMQRows (db.match_questions ++ mqRowsFor m.id (q :: qs) 1) m.id =
          mqRowsFor m.id (q :: qs) 1 :=
        selectMQRows_clean_append db.match_questions m.id (q :: qs) 1 hclean
      have hexn : 0 < (selectMQRows (db.match_questions ++ mqRowsFor m.id (q :: qs) 1)
          m.id).length := by
        rw [hclean2, mqRowsFor]
        simp
      have hfin := ensure_existing hash
        { db with match_questions := db.match_questions ++ mqRowsFor m.id (q :: qs) 1 } m hexn
      rw [hfin]
      exact Prod.ext_iff.mpr ⟨hclean2, rfl⟩

/-- C8 witness: concrete 2-question match over a 3-question pool (one
unapproved), generated with the identity hash. -/
theorem question_set_deterministic_idempotent_witness :
    (ensureDuelloQuestionSet (fun s => s) dbQSet
        ⟨1, "info", 1, 2, "active", 2, 0, none, none, none, none, none, none⟩).1 =
      mqRowsFor 1 (duelloChosenQuestionIds (fun s => s) dbQSet
        ⟨1, "info", 1, 2, "active", 2, 0, none, none, none, none, none, none⟩) 1 ∧
    ensureDuelloQuestionSet (fun s => s)
        ((ensureDuelloQuestionSet (fun s => s) dbQSet
          ⟨1, "info", 1, 2, "active", 2, 0, none, none, none, none, none, none⟩).2)
        ⟨1, "info", 1, 2, "active", 2, 0, none, none, none, none, none, none⟩ =
      ((ensureDuelloQuestionSet (fun s => s) dbQSet
          ⟨1, "info", 1, 2, "active", 2, 0, none, none, none, none, none, none⟩).1,
       (ensureDuelloQuestionSet (fun s => s) dbQSet
          ⟨1, "info", 1, 2, "active", 2, 0, none, none, none, none, none, none⟩).2) :=
  ⟨((question_set_deterministic_idempotent (fun s => s) dbQSet _).2.1 (by decide)).1,
   (question_set_deterministic_idempotent (fun s => s) dbQSet _).2.2⟩

/-! ## C7: createInvite semantics -/

theorem expire_invite_ids (db : DB) :
    (expireOldInvites db).invites.map (fun i => i.id) = db.invites.map (fun i => i.id) := by
  show (db.invites.map _).map _ = _
  rw [List.map_map]
  apply List.map_congr_left
  intro i hi
  by_cases hg : i.status = "pending" ∧ i.expire_at ≤ db.now
  · simp [Function.comp, hg]
  · simp [Function.comp, hg]

theorem hasFreshPendingInvite_lazy (db : DB) (a b : Nat) :
    hasFreshPendingInvite (finishOvercompleteMatches (expireOldInvites db)) a b =
      hasFreshPendingInvite db a b := by
  unfold hasFreshPendingInvite
  show (db.invites.map (fun i =>
      if i.status = "pending" ∧ i.expire_at ≤ db.now
      then { i with status := "expired" } else i)).any (fun i =>
        i.status = "pending" ∧ db.now < i.expire_at ∧
          ((i.from_user_id = a ∧ i.to_user_id = b) ∨
           (i.from_user_id = b ∧ i.to_user_id = a))) = _
  rw [List.any_map]
  apply any_congr_mem
  intro i hi
  rw [Function.comp_apply]
  by_cases hg : i.status = "pending" ∧ i.expire_at ≤ db.now
  · rw [if_pos hg]
    have h2 : ¬ db.now < i.expire_at := by
      have := hg.2
      omega
    simp [h2, hg.1]
  · rw [if_neg hg]

/-- C7 (amended): `createInvite` fails with `TargetUnknown` when the target
does not resolve, `SelfChallenge` when from = to, `AlreadyActive` when either
party holds an active match *that still has questions remaining* (over-complete
active matches are lazily finished first — see the lazy-completion step),
`DuplicatePending` when an unexpired pending invite exists between the pair in
either direction; on success it inserts exactly one pending invite with
`expire_at = created_at + 5 minutes` and emits `invite:new` to the target; on
each of these failures no invite row is inserted. -/
theorem create_invite_semantics_amended :
    ∀ db fromId toUid toCode modeRaw,
      (fromId ≠ 0 → findUserByIdOrCode db toUid toCode = none →
        duelloCreateInvite db fromId toUid toCode modeRaw = (InviteOut.targetUnknown, db)) ∧
      (∀ tu : UserRow, fromId ≠ 0 → findUserByIdOrCode db toUid toCode = some tu →
        (["info", "speed"].contains (strLower (modeRaw.getD "info"))) = true →
        fromId = tu.id →
        duelloCreateInvite db fromId toUid toCode modeRaw = (InviteOut.selfChallenge, db)) ∧
      (∀ tu : UserRow, fromId ≠ 0 → findUserByIdOrCode db toUid toCode = some tu →
        (["info", "speed"].contains (strLower (modeRaw.getD "info"))) = true →
        fromId ≠ tu.id →
        db.duello_matches.any (fun m => m.state = "active" ∧
          (m.user_a_id = fromId ∨ m.user_b_id = fromId) ∧
          m.current_index < m.total_questions) = true →
        (duelloCreateInvite db fromId toUid toCode modeRaw).1 = InviteOut.senderActive ∧
        (duelloCreateInvite db fromId toUid toCode modeRaw).2.invites.map (fun i => i.id) =
          db.invites.map (fun i => i.id)) ∧
      (∀ tu : UserRow, fromId ≠ 0 → findUserByIdOrCode db toUid toCode = some tu →
        (["info", "speed"].contains (strLower (modeRaw.getD "info"))) = true →
        fromId ≠ tu.id →
        db.duello_matches.any (fun m => m.state = "active" ∧
          (m.user_a_id = fromId ∨ m.user_b_id = fromId) ∧
          m.current_index < m.total_questions) = false →
        db.duello_matches.any (fun m => m.state = "active" ∧
          (m.user_a_id = tu.id ∨ m.user_b_id = tu.id) ∧
          m.current_index < m.total_questions) = true →
        (duelloCreateInvite db fromId toUid toCode modeRaw).1 = InviteOut.receiverActive ∧
        (duelloCreateInvite db fromId toUid toCode modeRaw).2.invites.map (fun i => i.id) =
          db.invites.map (fun i => i.id)) ∧
      (∀ tu : UserRow, fromId ≠ 0 → findUserByIdOrCode db toUid toCode = some tu →
        (["info", "speed"].contains (strLower (modeRaw.getD "info"))) = true →
        fromId ≠ tu.id →
        db.duello_matches.any (fun m => m.state = "active" ∧
          (m.user_a_id = fromId ∨ m.user_b_id = fromId) ∧
          m.current_index < m.total_questions) = false →
        db.duello_matches.any (fun m => m.state = "active" ∧
          (m.user_a_id = tu.id ∨ m.user_b_id = tu.id) ∧
          m.current_index < m.total_questions) = false →
        hasFreshPendingInvite db fromId tu.id = true →
        (duelloCreateInvite db fromId toUid toCode modeRaw).1 = InviteOut.duplicatePending ∧
        (duelloCreateInvite db fromId toUid toCode modeRaw).2.invites.map (fun i => i.id) =
          db.invites.map (fun i => i.id)) ∧
      (∀ tu : UserRow, fromId ≠ 0 → findUserByIdOrCode db toUid toCode = some tu →
        (["info", "speed"].contains (strLower (modeRaw.getD "info"))) = true →
        fromId ≠ tu.id →
        db.duello_matches.any (fun m => m.state = "active" ∧
          (m.user_a_id = fromId ∨ m.user_b_id = fromId) ∧
          m.current_index < m.total_questions) = false →
        db.duello_matches.any (fun m => m.state = "active" ∧
          (m.user_a_id = tu.id ∨ m.user_b_id = tu.id) ∧
          m.current_index < m.total_questions) = false →
        hasFreshPendingInvite db fromId tu.id = false →
        (duelloCreateInvite db fromId toUid toCode modeRaw).1 =
          InviteOut.created db.next_invite_id ∧
        (duelloCreateInvite db fromId toUid toCode modeRaw).2.invites =
          (expireOldInvites db).invites ++
            [⟨db.next_invite_id, fromId, tu.id, strLower (modeRaw.getD "info"),
              "pending", db.now + 300, none⟩] ∧
        (duelloCreateInvite db fromId toUid toCode modeRaw).2.events =
          db.events ++ [⟨tu.id, "invite:new", db.next_invite_id⟩]) := by
  intro db fromId toUid toCode modeRaw
  refine ⟨fun hf hnone => ?_, fun tu hf htu hmode hself => ?_,
    fun tu hf htu hmode hself hsa => ?_,
    fun tu hf htu hmode hself hsa hra => ?_,
    fun tu hf htu hmode hself hsa hra hfp => ?_,
    fun tu hf htu hmode hself hsa hra hfp => ?_⟩
  · unfold duelloCreateInvite
    rw [if_neg hf, hnone]
  · unfold duelloCreateInvite
    rw [if_neg hf, htu]
    dsimp only
    rw [if_neg (not_not_intro hmode), if_pos hself]
  · unfold duelloCreateInvite
    rw [if_neg hf, htu]
    dsimp only
    rw [if_neg (not_not_intro hmode), if_neg hself,
      if_pos (by rw [hasActiveMatch_lazyFinish]; exact hsa)]
    exact ⟨rfl, expire_invite_ids db⟩
  · unfold duelloCreateInvite
    rw [if_neg hf, htu]
    dsimp only
    rw [if_neg (not_not_intro hmode), if_neg hself,
      if_neg (by rw [hasActiveMatch_lazyFinish, hsa]; exact Bool.false_ne_true),
      if_pos (by rw [hasActiveMatch_lazyFinish]; exact hra)]
    exact ⟨rfl, expire_invite_ids db⟩
  · unfold duelloCreateInvite
    rw [if_neg hf, htu]
    dsimp only
    rw [if_neg (not_not_intro hmode), if_neg hself,
      if_neg (by rw [hasActiveMatch_lazyFinish, hsa]; exact Bool.false_ne_true),
      if_neg (by rw [hasActiveMatch_lazyFinish, hra]; exact Bool.false_ne_true),
      if_pos (by rw [hasFreshPendingInvite_lazy]; exact hfp)]
    exact ⟨rfl, expire_invite_ids db⟩
  · unfold duelloCreateInvite
    rw [if_neg hf, htu]
    dsimp only
    rw [if_neg (not_not_intro hmode), if_neg hself,
      if_neg (by rw [hasActiveMatch_lazyFinish, hsa]; exact Bool.false_ne_true),
      if_neg (by rw [hasActiveMatch_lazyFinish, hra]; exact Bool.false_ne_true),
      if_neg (by rw [hasFreshPendingInvite_lazy, hfp]; exact Bool.false_ne_true)]
    exact ⟨rfl, rfl, rfl⟩

/-- C7 witness: a successful invite from user 1 to user 3. -/
theorem create_invite_semantics_witness :
    (duelloCreateInvite dbTwoInvites 1 (some 3) none none).1 = InviteOut.created 3 ∧
    (duelloCreateInvite dbTwoInvites 1 (some 3) none none).2.events =
      dbTwoInvites.events ++ [⟨3, "invite:new", 3⟩] := by
  have h := (create_invite_semantics_amended dbTwoInvites 1 (some 3) none none).2.2.2.2.2
    ⟨3, "CCC"⟩ (by decide) (by decide) (by decide) (by decide) (by decide) (by decide)
    (by decide)
  exact ⟨h.1, h.2.2⟩

/-! ## Pointwise facts about the per-row writes and `activePred` -/

theorem activePred_touchWrite (u mid uid : Nat) (now : Int) (x : MatchRow) :
    activePred u (touchWrite mid uid now x) = activePred u x := by
  unfold touchWrite
  by_cases hid : x.id = mid
  · simp [hid, activePred]
  · simp [hid]

theorem activePred_revealFinish (u mid : Nat) (now : Int) (x : MatchRow)
    (h : activePred u (revealFinishWrite mid now x) = true) : activePred u x = true := by
  unfold revealFinishWrite at h
  by_cases hid : x.id = mid
  · rw [if_pos hid] at h
    exact absurd h (by simp [activePred])
  · rwa [if_neg hid] at h

theorem activePred_revealAdvFin (u mid nextIdx : Nat) (now : Int) (x : MatchRow)
    (h : activePred u (revealAdvanceFinishWrite mid nextIdx now x) = true) :
    activePred u x = true := by
  unfold revealAdvanceFinishWrite at h
  by_cases hid : x.id = mid
  · rw [if_pos hid] at h
    exact absurd h (by simp [activePred])
  · rwa [if_neg hid] at h

theorem activePred_revealAdv (u mid nextIdx : Nat) (x : MatchRow) :
    activePred u (revealAdvanceWrite mid nextIdx x) = activePred u x := by
  unfold revealAdvanceWrite
  by_cases hid : x.id = mid
  · simp [hid, activePred]
  · simp [hid]

theorem activePred_lazy (u : Nat) (now : Int) (x : MatchRow)
    (h : activePred u (lazyFinishWrite now x) = true) : activePred u x = true := by
  unfold lazyFinishWrite at h
  by_cases hg : x.state = "active" ∧ x.total_questions ≤ x.current_index
  · rw [if_pos hg] at h
    exact absurd h (by simp [activePred])
  · rwa [if_neg hg] at h

theorem activePred_idle (u : Nat) (sec now : Int) (x : MatchRow)
    (h : activePred u (idleAbortWrite sec now x) = true) : activePred u x = true := by
  unfold idleAbortWrite at h
  by_cases hg : idleAbortPred sec now x = true
  · rw [if_pos hg] at h
    exact absurd h (by simp [activePred])
  · rwa [if_neg hg] at h

theorem countP_map_le (l : List MatchRow) (g : MatchRow → MatchRow) (p : MatchRow → Bool)
    (h : ∀ x, p (g x) = true → p x = true) :
    (l.map g).countP p ≤ l.countP p := by
  induction l with
  | nil => simp
  | cons x xs ih =>
    rw [List.map_cons, List.countP_cons, List.countP_cons]
    by_cases hx : p (g x) = true
    · rw [if_pos hx, if_pos (h x hx)]
      omega
    · rw [if_neg hx]
      by_cases hx2 : p x = true
      · rw [if_pos hx2]
        omega
      · rw [if_neg hx2]
        omega

theorem countP_eq_zero_of_any_false (l : List MatchRow) (p : MatchRow → Bool)
    (h : l.any p = false) : l.countP p = 0 := by
  rw [List.countP_eq_zero]
  intro a ha
  exact (List.any_eq_false.mp h) a ha

/-! ## Case analyses of the four mutating handlers (for C1 and C2) -/

/-- Every call to the respond handler either creates no match (and is not a
successful acceptance), or is an acceptance that — under the advisory locks —
found both participants free of active matches and appended exactly one fresh
`active` match. -/
theorem respond_cases (db : DB) (i resp : Nat) (a : String) :
    (isAccepted (duelloRespondInvite db i resp a).1 = false ∧
     (duelloRespondInvite db i resp a).2.duello_matches = db.duello_matches) ∨
    (∃ inv, (expireOldInvites db).findInvite i = some inv ∧
      isAccepted (duelloRespondInvite db i resp a).1 = true ∧
      hasActiveMatch db inv.from_user_id = false ∧
      hasActiveMatch db inv.to_user_id = false ∧
      (duelloRespondInvite db i resp a).2.duello_matches =
        db.duello_matches ++
          [⟨db.next_match_id, inv.mode, inv.from_user_id, inv.to_user_id, "active", 12, 0,
            some db.now, some db.now, some db.now, none, none, none⟩]) := by
  unfold duelloRespondInvite
  dsimp only
  split
  · exact Or.inl ⟨rfl, rfl⟩
  split
  · exact Or.inl ⟨rfl, rfl⟩
  split
  · exact Or.inl ⟨rfl, rfl⟩
  case _ inv heq =>
    split
    · exact Or.inl ⟨rfl, rfl⟩
    split
    · exact Or.inl ⟨rfl, rfl⟩
    split
    · exact Or.inl ⟨rfl, rfl⟩
    split
    · exact Or.inl ⟨rfl, rfl⟩
    split
    · exact Or.inl ⟨rfl, rfl⟩
    split
    · exact Or.inl ⟨rfl, rfl⟩
    case _ h1 h2 =>
      refine Or.inr ⟨inv, heq, rfl, ?_, ?_, rfl⟩
      · cases hcase : hasActiveMatch db inv.from_user_id
        · rfl
        · exact absurd (show hasActiveMatch (expireOldInvites db) inv.from_user_id = true
            from hcase) h1
      · cases hcase : hasActiveMatch db inv.to_user_id
        · rfl
        · exact absurd (show hasActiveMatch (expireOldInvites db) inv.to_user_id = true
            from hcase) h2

/-- The invite handler either leaves the match table unchanged (request
validation failures) or applies exactly the lazy-finish write to every row. -/
theorem createInvite_matches_cases (db : DB) (fromId : Nat) (toUid : Option Nat)
    (toCode : Option String) (modeRaw : Option String) :
    (duelloCreateInvite db fromId toUid toCode modeRaw).2.duello_matches =
        db.duello_matches ∨
    (duelloCreateInvite db fromId toUid toCode modeRaw).2.duello_matches =
        db.duello_matches.map (lazyFinishWrite db.now) := by
  unfold duelloCreateInvite
  dsimp only
  split
  · exact Or.inl rfl
  split
  · exact Or.inl rfl
  split
  · exact Or.inl rfl
  split
  · exact Or.inl rfl
  split
  · exact Or.inr rfl
  split
  · exact Or.inr rfl
  split
  · exact Or.inr rfl
  · exact Or.inr rfl

/-- The answer handler either leaves the match table unchanged or — only for
an `active` match found by id — applies the liveness touch to it. -/
theorem submit_matches_cases (db : DB) (mid uid : Nat) (raw : Option String)
    (tls mls : Option Int) :
    (duelloSubmitAnswer db mid uid raw tls mls).2.duello_matches = db.duello_matches ∨
    (∃ m, db.findMatch mid = some m ∧ m.state = "active" ∧
      (duelloSubmitAnswer db mid uid raw tls mls).2.duello_matches =
        db.duello_matches.map (touchWrite mid uid db.now)) := by
  unfold duelloSubmitAnswer
  dsimp only
  split
  · exact Or.inl rfl
  split
  · exact Or.inl rfl
  case _ m heq =>
    split
    · exact Or.inl rfl
    split
    · exact Or.inl rfl
    case _ hs hp =>
      have hact : m.state = "active" := not_ne_iff.mp hs
      repeat' split
      all_goals first
        | exact Or.inl rfl
        | exact Or.inr ⟨m, heq, hact, rfl⟩

theorem touchWrite_id (mid uid : Nat) (now : Int) (x : MatchRow) (hx : ¬ x.id = mid) :
    touchWrite mid uid now x = x := by
  rw [touchWrite, if_neg hx]

/-- The reveal handler either leaves the match table unchanged or — only for
an `active` match found by id — applies a per-row write that can alter only
rows whose `id` equals the requested match id. -/
theorem reveal_matches_cases (db : DB) (mid uid : Nat) :
    (duelloReveal db mid uid).2.duello_matches = db.duello_matches ∨
    (∃ m, db.findMatch mid = some m ∧ m.state = "active" ∧
      ∃ g : MatchRow → MatchRow, (∀ x, ¬ x.id = mid → g x = x) ∧
        (∀ v x, activePred v (g x) = true → activePred v x = true) ∧
        (duelloReveal db mid uid).2.duello_matches = db.duello_matches.map g) := by
  unfold duelloReveal
  dsimp only
  split
  · exact Or.inl rfl
  split
  · exact Or.inl rfl
  case _ m heq =>
    split
    · exact Or.inl rfl
    case _ hs =>
      have hact : m.state = "active" := not_ne_iff.mp hs
      split
      · exact Or.inl rfl
      repeat' split
      all_goals first
        | exact Or.inl rfl
        | (refine Or.inr ⟨m, heq, hact,
              fun x => revealFinishWrite mid db.now (touchWrite mid uid db.now x),
              fun x hx => ?_, fun v x hpx => ?_, ?_⟩
           · show revealFinishWrite mid db.now (touchWrite mid uid db.now x) = x
             rw [touchWrite_id mid uid db.now x hx, revealFinishWrite, if_neg hx]
           · have h2 := activePred_revealFinish v mid db.now (touchWrite mid uid db.now x) hpx
             rwa [activePred_touchWrite] at h2
           · show (db.duello_matches.map (touchWrite mid uid db.now)).map
                (revealFinishWrite mid db.now) = _
             rw [List.map_map]
             rfl)
        | (refine Or.inr ⟨m, heq, hact,
              fun x => revealAdvanceFinishWrite mid (m.current_index + 1) db.now
                (touchWrite mid uid db.now x),
              fun x hx => ?_, fun v x hpx => ?_, ?_⟩
           · show revealAdvanceFinishWrite mid (m.current_index + 1) db.now
                (touchWrite mid uid db.now x) = x
             rw [touchWrite_id mid uid db.now x hx, revealAdvanceFinishWrite, if_neg hx]
           · have h2 := activePred_revealAdvFin v mid (m.current_index + 1) db.now
               (touchWrite mid uid db.now x) hpx
             rwa [activePred_touchWrite] at h2
           · show (db.duello_matches.map (touchWrite mid uid db.now)).map
                (revealAdvanceFinishWrite mid (m.current_index + 1) db.now) = _
             rw [List.map_map]
             rfl)
        | (refine Or.inr ⟨m, heq, hact,
              fun x => revealAdvanceWrite mid (m.current_index + 1)
                (touchWrite mid uid db.now x),
              fun x hx => ?_, fun v x hpx => ?_, ?_⟩
           · show revealAdvanceWrite mid (m.current_index + 1)
                (touchWrite mid uid db.now x) = x
             rw [touchWrite_id mid uid db.now x hx, revealAdvanceWrite, if_neg hx]
           · have h2 : activePred v (touchWrite mid uid db.now x) = true := by
               rwa [activePred_revealAdv] at hpx
             rwa [activePred_touchWrite] at h2
           · show (db.duello_matches.map (touchWrite mid uid db.now)).map
                (revealAdvanceWrite mid (m.current_index + 1)) = _
             rw [List.map_map]
             rfl)
        | exact Or.inr ⟨m, heq, hact, touchWrite mid uid db.now,
            touchWrite_id mid uid db.now,
            fun v x hpx => by rwa [activePred_touchWrite] at hpx, rfl⟩

/-! ## C2: termination monotonicity -/

theorem frozen_refl (l : List MatchRow) : terminalRowsFrozen l l :=
  ⟨le_refl _, fun _ _ _ _ => rfl⟩

theorem frozen_append (l extra : List MatchRow) : terminalRowsFrozen l (l ++ extra) := by
  refine ⟨by simp, fun i h1 h2 _ => ?_⟩
  simp only [List.get_eq_getElem]
  simp [List.getElem_append, h1]

theorem frozen_map_of_fixed (l : List MatchRow) (g : MatchRow → MatchRow)
    (h : ∀ i (h1 : i < l.length), (l.get ⟨i, h1⟩).state ≠ "active" →
      g (l.get ⟨i, h1⟩) = l.get ⟨i, h1⟩) :
    terminalRowsFrozen l (l.map g) := by
  refine ⟨by simp, fun i h1 h2 hterm => ?_⟩
  simp only [List.get_eq_getElem, List.getElem_map]
  simp only [List.get_eq_getElem] at h
  exact h i h1 hterm

theorem frozen_guarded_map (l : List MatchRow) (mid : Nat) (m0 : MatchRow)
    (hnd : (l.map (fun m => m.id)).Nodup)
    (hfind : l.find? (fun m => m.id = mid) = some m0)
    (hact : m0.state = "active")
    (g : MatchRow → MatchRow) (hg : ∀ x, ¬ x.id = mid → g x = x) :
    terminalRowsFrozen l (l.map g) := by
  apply frozen_map_of_fixed
  intro i h1 hterm
  apply hg
  intro he
  have hm0 : m0 ∈ l := List.mem_of_find?_eq_some hfind
  have hm0id : m0.id = mid := by
    have := List.find?_some hfind
    simpa using this
  have hmem : l.get ⟨i, h1⟩ ∈ l := l.get_mem _ h1
  have heqm : l.get ⟨i, h1⟩ = m0 := by
    refine List.inj_on_of_nodup_map hnd hmem hm0 ?_
    show (l.get ⟨i, h1⟩).id = m0.id
    rw [he, hm0id]
  rw [heqm] at hterm
  exact hterm hact

theorem lazyFinishWrite_frozen (now : Int) (m : MatchRow) (h : m.state ≠ "active") :
    lazyFinishWrite now m = m := by
  rw [lazyFinishWrite, if_neg]
  exact fun hg => h hg.1

theorem idleAbortWrite_frozen (sec now : Int) (m : MatchRow) (h : m.state ≠ "active") :
    idleAbortWrite sec now m = m := by
  have hnp : ¬ idleAbortPred sec now m = true := by
    intro hp
    unfold idleAbortPred at hp
    simp only [decide_eq_true_eq] at hp
    exact h hp.1
  rw [idleAbortWrite, if_neg hnp]

/-- C2 (amended): in the atomic-handler model, match termination is monotonic:
for every operation of the subsystem (invite creation, invite response, answer
submission, reveal, idle tick), every row whose state has left `active` is
carried over completely unchanged (assuming unique match ids, the table's
primary-key invariant).  The idle sweeper's write is moreover guarded row-wise
by `WHERE state='active'`.  (The reveal handler's termination `UPDATE`s are *not*
so guarded — their `WHERE` clause names only the id, see the counterexample —
so for them first-writer-wins relies on the handler's earlier `state='active'`
read, i.e. on the read-check-write span not interleaving with the sweeper.) -/
theorem termination_monotonic_amended :
    (∀ (op : Op) (db : DB), (db.duello_matches.map (fun m => m.id)).Nodup →
      terminalRowsFrozen db.duello_matches (applyOp op db).duello_matches) ∧
    (∀ (sec now : Int) (m : MatchRow), m.state ≠ "active" →
      idleAbortWrite sec now m = m) := by
  constructor
  · intro op db hnd
    cases op with
    | invite f tu tc mr =>
      show terminalRowsFrozen db.duello_matches
        (duelloCreateInvite db f tu tc mr).2.duello_matches
      rcases createInvite_matches_cases db f tu tc mr with h | h
      · rw [h]
        exact frozen_refl _
      · rw [h]
        apply frozen_map_of_fixed
        intro i h1 hterm
        exact lazyFinishWrite_frozen db.now _ hterm
    | respond i u a =>
      show terminalRowsFrozen db.duello_matches
        (duelloRespondInvite db i u a).2.duello_matches
      rcases respond_cases db i u a with ⟨_, h⟩ | ⟨inv, _, _, _, _, h⟩
      · rw [h]
        exact frozen_refl _
      · rw [h]
        exact frozen_append _ _
    | answer mid uid raw tls mls =>
      show terminalRowsFrozen db.duello_matches
        (duelloSubmitAnswer db mid uid raw tls mls).2.duello_matches
      rcases submit_matches_cases db mid uid raw tls mls with h | ⟨m, hfind, hact, h⟩
      · rw [h]
        exact frozen_refl _
      · rw [h]
        exact frozen_guarded_map _ mid m hnd hfind hact _ (touchWrite_id mid uid db.now)
    | reveal mid uid =>
      show terminalRowsFrozen db.duello_matches (duelloReveal db mid uid).2.duello_matches
      rcases reveal_matches_cases db mid uid with h | ⟨m, hfind, hact, g, hg, _, h⟩
      · rw [h]
        exact frozen_refl _
      · rw [h]
        exact frozen_guarded_map _ mid m hnd hfind hact g hg
    | idle env =>
      show terminalRowsFrozen db.duello_matches (duelloIdleAbortTick env db).duello_matches
      have h : (duelloIdleAbortTick env db).duello_matches =
          db.duello_matches.map (idleAbortWrite (duelloIdleAbortSecOf env) db.now) := rfl
      rw [h]
      apply frozen_map_of_fixed
      intro i h1 hterm
      exact idleAbortWrite_frozen _ db.now _ hterm
  · intro sec now m hterm
    exact idleAbortWrite_frozen sec now m hterm

/-- C2 witness: a reveal against the finished-match state, and the guarded
sweeper write on an abandoned row. -/
theorem termination_monotonic_witness :
    terminalRowsFrozen dbFinished.duello_matches
      (applyOp (Op.reveal 1 1) dbFinished).duello_matches ∧
    idleAbortWrite 90 100 rowAbandoned = rowAbandoned :=
  ⟨termination_monotonic_amended.1 (Op.reveal 1 1) dbFinished (by decide),
   termination_monotonic_amended.2 90 100 rowAbandoned (by decide)⟩

/-! ## C1: single-active-match invariant and accept races -/

theorem find?_map_pred {α : Type} (l : List α) (f : α → α) (p : α → Bool)
    (h : ∀ x, p (f x) = p x) :
    (l.map f).find? p = (l.find? p).map f := by
  induction l with
  | nil => rfl
  | cons x xs ih =>
    rw [List.map_cons]
    by_cases hx : p x = true
    · rw [List.find?_cons_of_pos _ ((h x).trans hx), List.find?_cons_of_pos _ hx]
      rfl
    · rw [List.find?_cons_of_neg _ (by rw [h]; exact hx),
        List.find?_cons_of_neg _ hx, ih]

theorem inviteTouches_frozen (db : DB) (i u : Nat) (inv : InviteRow)
    (heq : (expireOldInvites db).findInvite i = some inv)
    (ht : inviteTouches db i u = true) :
    inv.from_user_id = u ∨ inv.to_user_id = u := by
  have hmap : (expireOldInvites db).findInvite i =
      ((db.findInvite i).map (fun j =>
        if j.status = "pending" ∧ j.expire_at ≤ db.now
        then { j with status := "expired" } else j)) := by
    show (db.invites.map _).find? _ = _
    apply find?_map_pred
    intro j
    by_cases hg : j.status = "pending" ∧ j.expire_at ≤ db.now
    · simp [hg]
    · simp [hg]
  rw [hmap] at heq
  unfold inviteTouches at ht
  cases hfi : db.findInvite i with
  | none =>
    rw [hfi] at heq
    cases heq
  | some j =>
    rw [hfi] at ht heq
    have hinv : (if j.status = "pending" ∧ j.expire_at ≤ db.now
        then { j with status := "expired" } else j) = inv := by
      injection heq
    simp only [decide_eq_true_eq] at ht
    rw [← hinv]
    by_cases hg : j.status = "pending" ∧ j.expire_at ≤ db.now
    · simp only [if_pos hg]
      exact ht
    · simp only [if_neg hg]
      exact ht

theorem accept_fails_when_active (db : DB) (i resp u : Nat)
    (hact : hasActiveMatch db u = true) (ht : inviteTouches db i u = true) :
    isAccepted (duelloRespondInvite db i resp "accept").1 = false := by
  rcases respond_cases db i resp "accept" with ⟨h, _⟩ | ⟨inv, heq, _, hfa, hfb, _⟩
  · exact h
  · exfalso
    rcases inviteTouches_frozen db i u inv heq ht with hu | hu
    · rw [hu, hact] at hfa
      cases hfa
    · rw [hu, hact] at hfb
      cases hfb

theorem active_persists_respond (db : DB) (i resp : Nat) (a : String) (u : Nat)
    (hact : hasActiveMatch db u = true) :
    hasActiveMatch (duelloRespondInvite db i resp a).2 u = true := by
  unfold hasActiveMatch at hact ⊢
  rcases respond_cases db i resp a with ⟨_, h⟩ | ⟨inv, _, _, _, _, h⟩
  · rw [h]
    exact hact
  · rw [h, List.any_append, hact]
    rfl

theorem accept_success_active (db : DB) (i resp u : Nat)
    (ht : inviteTouches db i u = true)
    (hsucc : isAccepted (duelloRespondInvite db i resp "accept").1 = true) :
    hasActiveMatch (duelloRespondInvite db i resp "accept").2 u = true := by
  rcases respond_cases db i resp "accept" with ⟨h, _⟩ | ⟨inv, heq, _, _, _, h⟩
  · rw [h] at hsucc
    exact absurd hsucc (by decide)
  · unfold hasActiveMatch
    rw [h, List.any_append]
    have hone : ([(⟨db.next_match_id, inv.mode, inv.from_user_id, inv.to_user_id,
        "active", 12, 0, some db.now, some db.now, some db.now, none, none,
        none⟩ : MatchRow)]).any (fun m =>
          m.state = "active" ∧ (m.user_a_id = u ∨ m.user_b_id = u)) = true := by
      rcases inviteTouches_frozen db i u inv heq ht with hu | hu
      · simp [hu]
      · simp [hu]
    rw [hone]
    simp

theorem count_zero_of_active (u : Nat) (ops : List (Nat × Nat)) :
    ∀ db, hasActiveMatch db u = true → countAcceptSuccTouching u db ops = 0 := by
  induction ops with
  | nil => intro db _; rfl
  | cons p rest ih =>
    intro db hact
    have hneg : ¬(isAccepted (duelloRespondInvite db p.1 p.2 "accept").1 = true ∧
        inviteTouches db p.1 u = true) := by
      rintro ⟨hs, ht⟩
      have hf := accept_fails_when_active db p.1 p.2 u hact ht
      rw [hf] at hs
      cases hs
    rw [countAcceptSuccTouching, if_neg hneg,
      ih _ (active_persists_respond db p.1 p.2 "accept" u hact)]

theorem count_at_most_one (u : Nat) (ops : List (Nat × Nat)) :
    ∀ db, countAcceptSuccTouching u db ops ≤ 1 := by
  induction ops with
  | nil =>
    intro db
    exact Nat.zero_le 1
  | cons p rest ih =>
    intro db
    rw [countAcceptSuccTouching]
    by_cases hc : isAccepted (duelloRespondInvite db p.1 p.2 "accept").1 = true ∧
        inviteTouches db p.1 u = true
    · rw [if_pos hc, count_zero_of_active u rest _
        (accept_success_active db p.1 p.2 u hc.2 hc.1)]
    · rw [if_neg hc]
      have := ih (duelloRespondInvite db p.1 p.2 "accept").2
      omega

theorem single_active_preserved (op : Op) (db : DB) (hInv : SingleActive db) :
    SingleActive (applyOp op db) := by
  intro u
  cases op with
  | invite f tu tc mr =>
    show ((duelloCreateInvite db f tu tc mr).2.duello_matches.countP (activePred u)) ≤ 1
    rcases createInvite_matches_cases db f tu tc mr with h | h
    · rw [h]
      exact hInv u
    · rw [h]
      exact le_trans (countP_map_le _ _ _ (fun x hx => activePred_lazy u db.now x hx)) (hInv u)
  | respond i r a =>
    show ((duelloRespondInvite db i r a).2.duello_matches.countP (activePred u)) ≤ 1
    rcases respond_cases db i r a with ⟨_, h⟩ | ⟨inv, hfind, hsucc, hfa, hfb, h⟩
    · rw [h]
      exact hInv u
    · rw [h, List.countP_append]
      by_cases hm : activePred u (⟨db.next_match_id, inv.mode, inv.from_user_id,
          inv.to_user_id, "active", 12, 0, some db.now, some db.now, some db.now,
          none, none, none⟩ : MatchRow) = true
      · have hu : inv.from_user_id = u ∨ inv.to_user_id = u := by
          unfold activePred at hm
          simp only [decide_eq_true_eq] at hm
          exact hm.2
        have hzero : db.duello_matches.countP (activePred u) = 0 := by
          apply countP_eq_zero_of_any_false
          rcases hu with hu | hu
          · rw [← hu]
            exact hfa
          · rw [← hu]
            exact hfb
        rw [hzero]
        simp [List.countP_cons, hm]
      · have h1 : List.countP (activePred u)
            [(⟨db.next_match_id, inv.mode, inv.from_user_id, inv.to_user_id, "active",
              12, 0, some db.now, some db.now, some db.now, none, none,
              none⟩ : MatchRow)] = 0 := by
          simp [List.countP_cons, hm]
        rw [h1]
        have h2 : db.duello_matches.countP (activePred u) ≤ 1 := hInv u
        omega
  | answer mid uid raw tls mls =>
    show ((duelloSubmitAnswer db mid uid raw tls mls).2.duello_matches.countP
      (activePred u)) ≤ 1
    rcases submit_matches_cases db mid uid raw tls mls with h | ⟨m, _, _, h⟩
    · rw [h]
      exact hInv u
    · rw [h]
      refine le_trans (countP_map_le _ _ _ (fun x hx => ?_)) (hInv u)
      rwa [activePred_touchWrite] at hx
  | reveal mid uid =>
    show ((duelloReveal db mid uid).2.duello_matches.countP (activePred u)) ≤ 1
    rcases reveal_matches_cases db mid uid with h | ⟨m, _, _, g, _, hgp, h⟩
    · rw [h]
      exact hInv u
    · rw [h]
      exact le_trans (countP_map_le _ _ _ (fun x hx => hgp u x hx)) (hInv u)
  | idle env =>
    show ((duelloIdleAbortTick env db).duello_matches.countP (activePred u)) ≤ 1
    have h : (duelloIdleAbortTick env db).duello_matches =
        db.duello_matches.map (idleAbortWrite (duelloIdleAbortSecOf env) db.now) := rfl
    rw [h]
    exact le_trans (countP_map_le _ _ _
      (fun x hx => activePred_idle u (duelloIdleAbortSecOf env) db.now x hx)) (hInv u)

/-- C1 (amended): (i) every operation of the subsystem preserves the
single-active-match invariant — in particular the accept path re-checks it for
both participants inside the advisory-lock transaction before inserting the
match; (ii) any sequence of `respondInvite(accept)` calls yields at most one
successful match creation from invites touching a given user — all the other
accepts fail, though not necessarily with `AlreadyActive`: an accept that runs
after the first success finds its invite cancelled by that success and fails
with `NotPending` (see the counterexample), while `AlreadyActive` is returned
when the invite is still pending. -/
theorem single_active_match_accepts :
    (∀ (op : Op) (db : DB), SingleActive db → SingleActive (applyOp op db)) ∧
    (∀ (u : Nat) (db : DB) (ops : List (Nat × Nat)),
      countAcceptSuccTouching u db ops ≤ 1) :=
  ⟨single_active_preserved, fun u db ops => count_at_most_one u ops db⟩

/-- C1 witness: accepting invite 1 in the two-invite state preserves the
invariant, and the two-accept sequence on invites 1 and 2 (both touching
user 2) creates at most one match. -/
theorem single_active_match_accepts_witness :
    SingleActive (applyOp (Op.respond 1 2 "accept") dbTwoInvites) ∧
    countAcceptSuccTouching 2 dbTwoInvites [(1, 2), (2, 2)] ≤ 1 :=
  ⟨single_active_match_accepts.1 (Op.respond 1 2 "accept") dbTwoInvites
      (fun _ => Nat.zero_le 1),
   single_active_match_accepts.2 2 dbTwoInvites [(1, 2), (2, 2)]⟩
